import Mathlib

/-!
# settingsgen: template expansion, section dumping and output storage

A shallow embedding of `src/settingsgen/settingsgen.cpp` (OpenTTD's settings
generator) together with theorems about its line renderer (`DumpLine`), its
variable resolver (`FindItemValue`), its section dumper (`DumpSections`) and the
driver (`main`).

Conventions of the embedding:

* a `std::string` / `std::string_view` is a `Text`, the list of its `char`s; a `char` is
  a `Char`, and since the code only compares characters for equality every statement
  about lists of `Char` holds in particular for lists of bytes;
* the INI loader (`LoadFromDisk`) and option parsing are outside the embedding: the loader
  is a parameter and `main` starts from the parsed options;
* the two process-wide stores `_stored_output` and `_post_amble_output` are
  passed explicitly (`Globals`);
* `FatalError`, which prints a message and exits the process, is the `error`
  case of `Except Text`;
* loops whose trip count is bounded by the length of a text take that length
  as fuel; the theorems show that the fuel is never exhausted early.
-/

namespace Settingsgen

/-- A text: the sequence of `char`s held by a `std::string` or `std::string_view`. -/
abbrev Text := List Char

/-! ## INI data model (declared in `ini_type.h`) -/

/-- Modelled from the spec: `IniItem` is declared in `ini_type.h`. An item is a name
(possibly empty) and an optional value; an absent value means "key present, no value". -/
structure IniItem where
  name : Text
  value : Option Text
deriving DecidableEq

/-- Modelled from the spec: `IniGroupType` is declared in `ini_type.h`. The role tag of a
group: plain variables, a list, or a sequence of names. -/
inductive IniGroupType where
  | IGT_VARIABLES
  | IGT_LIST
  | IGT_SEQUENCE
deriving DecidableEq

/-- Modelled from the spec: `IniGroup` is declared in `ini_type.h`. A group is a name, a
role tag and its items in insertion order. -/
structure IniGroup where
  items : List IniItem
  type : IniGroupType
  name : Text
deriving DecidableEq

/-- Modelled from the spec: the loop of `IniGroup::GetItem` over a list of items; the
first item carrying the name resolves the lookup. -/
def IniGroup.GetItem.find (name : Text) : List IniItem → Option IniItem
  | [] => none
  | item :: rest => if item.name = name then some item else IniGroup.GetItem.find name rest

/-- Modelled from the spec: `IniGroup::GetItem` is defined outside the shown sources.
Items are looked up by name and the first match wins; `none` stands for `nullptr`. -/
def IniGroup.GetItem (self : IniGroup) (name : Text) : Option IniItem :=
  IniGroup.GetItem.find name self.items

/-- Modelled from the spec: `IniLoadFile` is declared in `ini_type.h`. A configuration is
the ordered sequence of its groups. -/
structure IniLoadFile where
  groups : List IniGroup
deriving DecidableEq

/-- Modelled from the spec: the loop of `IniLoadFile::GetGroup` over a list of groups. -/
def IniLoadFile.GetGroup.find (name : Text) : List IniGroup → Option IniGroup
  | [] => none
  | group :: rest => if group.name = name then some group else IniLoadFile.GetGroup.find name rest

/-- Modelled from the spec: `IniLoadFile::GetGroup` is defined outside the shown sources.
The first group carrying the name is returned; `none` stands for `nullptr`. -/
def IniLoadFile.GetGroup (self : IniLoadFile) (name : Text) : Option IniGroup :=
  IniLoadFile.GetGroup.find name self.groups

/-! ## Output storage -/

/-- Block size of the buffer in `OutputBuffer`. -/
def OUTPUT_BLOCK_SIZE : Nat := 16000

/-- Output buffer for a block of data. `data` holds the bytes `data[0 .. size)` of the
source; the unused tail of the fixed array is not represented, so `size` is the length. -/
structure OutputBuffer where
  data : Text
deriving DecidableEq

/-- Number of bytes stored in `data`. -/
def OutputBuffer.size (self : OutputBuffer) : Nat := self.data.length

/-- Function `OutputBuffer::Clear`: prepare buffer for use (`size = 0`). -/
def OutputBuffer.Clear (_self : OutputBuffer) : OutputBuffer := { data := [] }

/-- Function `OutputBuffer::Add`: copy at most `OUTPUT_BLOCK_SIZE - size` bytes of `text` behind the
stored bytes; returns the new buffer and the number of bytes actually stored. -/
def OutputBuffer.Add (self : OutputBuffer) (text : Text) : OutputBuffer × Nat :=
  let store_size := min text.length (OUTPUT_BLOCK_SIZE - self.size)
  ({ data := self.data ++ text.take store_size }, store_size)

/-- Function `OutputBuffer::Write`: the bytes handed to `fwrite`, that is `data[0 .. size)`. -/
def OutputBuffer.Write (self : OutputBuffer) : Text := self.data

/-- Function `OutputBuffer::HasRoom`: does the block have room for more data? -/
def OutputBuffer.HasRoom (self : OutputBuffer) : Bool :=
  decide (self.size < OUTPUT_BLOCK_SIZE)

/-- Temporarily stored output: a vector of blocks. -/
structure OutputStore where
  output_buffer : List OutputBuffer
deriving DecidableEq

/-- Function `OutputStore::Clear`: clear the temporary storage. -/
def OutputStore.Clear (_self : OutputStore) : OutputStore := { output_buffer := [] }

/-- Function `OutputStore::BufferHasRoom`: is there a last block and has it room? -/
def OutputStore.BufferHasRoom (self : OutputStore) : Bool :=
  match self.output_buffer.getLast? with
  | some last => last.HasRoom
  | none => false

/-- The `while (!text.empty())` loop of `OutputStore::Add`: append a fresh block, fill it,
drop the stored prefix. Every round stores at least one byte, so `text.length` rounds of
fuel are enough. -/
def OutputStore.Add.loop : Nat → List OutputBuffer → Text → List OutputBuffer
  | 0, output_buffer, _ => output_buffer
  | fuel + 1, output_buffer, text =>
    if text.isEmpty then output_buffer
    else
      let (block, stored_size) := (OutputBuffer.Clear { data := [] }).Add text
      OutputStore.Add.loop fuel (output_buffer ++ [block]) (text.drop stored_size)

/-- Function `OutputStore::Add`: add text to the output storage, back-filling the last block
before new blocks are appended. -/
def OutputStore.Add (self : OutputStore) (text : Text) : OutputStore :=
  let (output_buffer, text) :=
    match self.output_buffer.getLast? with
    | some last =>
      if !text.isEmpty && self.BufferHasRoom then
        let (last, stored_size) := last.Add text
        (self.output_buffer.dropLast ++ [last], text.drop stored_size)
      else (self.output_buffer, text)
    | none => (self.output_buffer, text)  -- no block at all: `BufferHasRoom` is false
  { output_buffer := OutputStore.Add.loop text.length output_buffer text }

/-- Function `OutputStore::Write`: the bytes sent to the stream, block after block. -/
def OutputStore.Write (self : OutputStore) : Text :=
  (self.output_buffer.map OutputBuffer.Write).flatten

/-! ## Variable resolver and line renderer -/

/-- Function `FindItemValue`: find the value of a template variable in `grp`, then in `defaults`
(`none` for `nullptr` skips the second search). -/
def FindItemValue (name : Text) (grp : IniGroup) (defaults : Option IniGroup) : Option Text :=
  let item := grp.GetItem name
  let item :=
    match item, defaults with
    | none, some defaults => defaults.GetItem name
    | item, _ => item
  match item with
  | none => none
  | some item => item.value

/-- Modelled from the spec: `StringConsumer` is declared in `core/string_consumer.hpp`.
It scans a text from left to right; the model keeps the part not yet consumed. -/
structure StringConsumer where
  rest : Text
deriving DecidableEq

/-- Modelled from the spec: `StringConsumer::AnyBytesLeft`, is there input left to scan. -/
def StringConsumer.AnyBytesLeft (self : StringConsumer) : Bool := !self.rest.isEmpty

/-- Modelled from the spec: `StringConsumer::ReadChar`, consume one character and return it
(with the fallback character of the declaration on empty input, where nothing is consumed). -/
def StringConsumer.ReadChar (self : StringConsumer) : Char × StringConsumer :=
  match self.rest with
  | [] => ('?', self)
  | c :: rest => (c, { rest := rest })

/-- Modelled from the spec: `StringConsumer::ReadIf`, when the input continues with `str`
consume it and answer `true`, otherwise consume nothing and answer `false`. -/
def StringConsumer.ReadIf (self : StringConsumer) (str : Text) : Bool × StringConsumer :=
  if str.isPrefixOf self.rest then (true, { rest := self.rest.drop str.length })
  else (false, self)

/-- Modelled from the spec: `StringConsumer::ReadUntilCharNotIn`, consume and return the
maximal run of characters drawn from `chars`. -/
def StringConsumer.ReadUntilCharNotIn (self : StringConsumer) (chars : Text) :
    Text × StringConsumer :=
  (self.rest.takeWhile (fun c => chars.contains c),
   { rest := self.rest.dropWhile (fun c => chars.contains c) })

/-- The preprocessor keywords tried by `DumpLine`, in the order of the source. -/
def pp_lines : List Text := ["if".toList, "ifdef".toList, "ifndef".toList]

/-- The characters of a template variable name. -/
def variable_name_characters : Text := "_abcdefghijklmnopqrstuvwxyz0123456789".toList

/-- First loop of `DumpLine`: prefix with `#if`/`#ifdef`/`#ifndef` lines and count them. -/
def DumpLine.guards (grp : IniGroup) (default_grp : Option IniGroup) :
    List Text → OutputStore → Nat → OutputStore × Nat
  | [], output, count => (output, count)
  | name :: names, output, count =>
    match FindItemValue name grp default_grp with
    | some condition =>
      let output := output.Add "#".toList
      let output := output.Add name
      let output := output.Add " ".toList
      let output := output.Add condition
      let output := output.Add "\n".toList
      DumpLine.guards grp default_grp names output (count + 1)
    | none => DumpLine.guards grp default_grp names output count

/-- Second loop of `DumpLine`: output the text of the template, except template variables
of the form `$[_a-z0-9]+`, which get replaced by their value. Every round consumes at least
one character, so the length of the template is enough fuel. -/
def DumpLine.expand (grp : IniGroup) (default_grp : Option IniGroup) :
    Nat → StringConsumer → OutputStore → OutputStore
  | 0, _, output => output
  | fuel + 1, consumer, output =>
    if consumer.AnyBytesLeft then
      let (c, consumer) := consumer.ReadChar
      if c ≠ '$' then
        DumpLine.expand grp default_grp fuel consumer (output.Add [c])
      else
        let (escaped, consumer) := consumer.ReadIf "$".toList
        if escaped then
          DumpLine.expand grp default_grp fuel consumer (output.Add [c])
        else
          let (variable_name, consumer) := consumer.ReadUntilCharNotIn variable_name_characters
          if !variable_name.isEmpty then
            match FindItemValue variable_name grp default_grp with
            | some valitem => DumpLine.expand grp default_grp fuel consumer (output.Add valitem)
            | none => DumpLine.expand grp default_grp fuel consumer output
          else
            DumpLine.expand grp default_grp fuel consumer (output.Add "$".toList)
    else output

/-- Last loop of `DumpLine`: one `#endif` line per counted guard. -/
def DumpLine.endifs : Nat → OutputStore → OutputStore
  | 0, output => output
  | count + 1, output => DumpLine.endifs count (output.Add "#endif\n".toList)

/-- Function `DumpLine`: parse a single entry via a template and output this. The source
dereferences `item->value`, so the item must have a value (`h`). -/
def DumpLine (item : IniItem) (h : item.value.isSome = true) (grp : IniGroup)
    (default_grp : Option IniGroup) (output : OutputStore) : OutputStore :=
  let (output, count) := DumpLine.guards grp default_grp pp_lines output 0
  let consumer : StringConsumer := { rest := item.value.get h }
  let output := DumpLine.expand grp default_grp consumer.rest.length consumer output
  let output := output.Add "\n".toList
  DumpLine.endifs count output

/-! ## Group and section dumping -/

/-- The two process-wide output stores of the source, passed explicitly. -/
structure Globals where
  _stored_output : OutputStore
  _post_amble_output : OutputStore
deriving DecidableEq

/-- Name of the group containing the pre amble. -/
def PREAMBLE_GROUP_NAME : Text := "pre-amble".toList

/-- Name of the group containing the post amble. -/
def POSTAMBLE_GROUP_NAME : Text := "post-amble".toList

/-- Name of the group containing the templates. -/
def TEMPLATES_GROUP_NAME : Text := "templates".toList

/-- Name of the group containing the validation statements. -/
def VALIDATION_GROUP_NAME : Text := "validation".toList

/-- Name of the group containing default values for the template variables. -/
def DEFAULTS_GROUP_NAME : Text := "defaults".toList

/-- Function `FatalError`: report a fatal error. The process ends there, which the model records as
the `error` case carrying the formatted message. -/
def FatalError {α : Type} (msg : Text) : Except Text α := Except.error msg

/-- The item loop of `DumpGroup`: every non-empty item name, followed by a newline. -/
def DumpGroup.items : List IniItem → OutputStore → OutputStore
  | [], output => output
  | item :: rest, output =>
    if !item.name.isEmpty then
      DumpGroup.items rest ((output.Add item.name).Add "\n".toList)
    else DumpGroup.items rest output

/-- Function `DumpGroup`: dump a `IGT_SEQUENCE` group into `_stored_output`. -/
def DumpGroup (ifile : IniLoadFile) (group_name : Text) (globals : Globals) : Globals :=
  match ifile.GetGroup group_name with
  | some grp =>
    if grp.type = IniGroupType.IGT_SEQUENCE then
      { globals with _stored_output := DumpGroup.items grp.items globals._stored_output }
    else globals
  | none => globals

/-- The group names `DumpSections` excludes. -/
def special_group_names : List Text :=
  [PREAMBLE_GROUP_NAME, POSTAMBLE_GROUP_NAME, DEFAULTS_GROUP_NAME, TEMPLATES_GROUP_NAME,
    VALIDATION_GROUP_NAME]

/-- The group loop of `DumpSections`: output every group, using its name as template name. -/
def DumpSections.loop (default_grp : Option IniGroup) (templates_grp : IniGroup)
    (validation_grp : Option IniGroup) : List IniGroup → Globals → Except Text Globals
  | [], globals => Except.ok globals
  | grp :: rest, globals =>
    if special_group_names.contains grp.name then
      DumpSections.loop default_grp templates_grp validation_grp rest globals
    else
      match templates_grp.GetItem grp.name with
      | none => FatalError ("Cannot find template ".toList ++ grp.name)
      | some template_item =>
        if h : template_item.value.isSome = true then
          let globals := { globals with
            _stored_output := DumpLine template_item h grp default_grp globals._stored_output }
          let globals :=
            match validation_grp with
            | some validation_grp =>
              match validation_grp.GetItem grp.name with
              | some validation_item =>
                if hv : validation_item.value.isSome = true then
                  { globals with
                    _post_amble_output :=
                      DumpLine validation_item hv grp default_grp globals._post_amble_output }
                else globals
              | none => globals
            | none => globals
          DumpSections.loop default_grp templates_grp validation_grp rest globals
        else FatalError ("Cannot find template ".toList ++ grp.name)

/-- Function `DumpSections`: output all non-special sections through the template / template
variable expansion system. -/
def DumpSections (ifile : IniLoadFile) (globals : Globals) : Except Text Globals :=
  let default_grp := ifile.GetGroup DEFAULTS_GROUP_NAME
  let templates_grp := ifile.GetGroup TEMPLATES_GROUP_NAME
  let validation_grp := ifile.GetGroup VALIDATION_GROUP_NAME
  match templates_grp with
  | none => Except.ok globals
  | some templates_grp =>
    DumpSections.loop default_grp templates_grp validation_grp ifile.groups globals

/-- Function `ProcessIniFile`: process a single INI file. `LoadFromDisk` is the INI loader of
`ini_load.cpp`, which is outside the shown sources and is taken as a parameter: it yields the
loaded groups or ends in a fatal error (`ReportFileError`). -/
def ProcessIniFile (LoadFromDisk : Text → Except Text IniLoadFile) (fname : Text)
    (globals : Globals) : Except Text Globals :=
  match LoadFromDisk fname with
  | Except.error msg => Except.error msg
  | Except.ok ini =>
    let globals := DumpGroup ini PREAMBLE_GROUP_NAME globals
    match DumpSections ini globals with
    | Except.error msg => Except.error msg
    | Except.ok globals => Except.ok (DumpGroup ini POSTAMBLE_GROUP_NAME globals)

/-! ## Files and the driver -/

/-- The environment `main` acts on: the files by name (`none`: no such file), and what has
been written to the standard output and error streams. The file system of the model never
refuses to create, write, remove or rename a file. -/
structure World where
  files : Text → Option Text
  stdout : Text
  stderr : Text

/-- A `FILE *` opened for writing: the standard output or a named file. -/
inductive Stream where
  | stdout
  | file (name : Text)

/-- Function `fwrite`: write `bytes` to a stream; all bytes are accepted. -/
def fwrite (w : World) (out_fp : Stream) (bytes : Text) : World :=
  match out_fp with
  | Stream.stdout => { w with stdout := w.stdout ++ bytes }
  | Stream.file name =>
    { w with files := fun n => if n = name then some ((w.files name).getD [] ++ bytes)
                               else w.files n }

/-- Function `FatalErrorI`: print the message to the error stream and exit with status 1. -/
def FatalErrorI (msg : Text) (w : World) : World × Nat :=
  ({ w with stderr := w.stderr ++ "settingsgen: FATAL: ".toList ++ msg ++ "\n".toList }, 1)

/-- The copy loop of `AppendFile`: read blocks of 4096 bytes from the rest of the input and
write them out, until a read comes back short. -/
def AppendFile.loop (out_fp : Stream) : Nat → Text → World → World
  | 0, _, w => w
  | fuel + 1, in_fp, w =>
    let buffer := in_fp.take 4096
    let w := fwrite w out_fp buffer
    if buffer.length = 4096 then AppendFile.loop out_fp fuel (in_fp.drop 4096) w else w

/-- Function `AppendFile`: append a file to the output stream. The file is read as it was when it was
opened. -/
def AppendFile (fname : Option Text) (out_fp : Stream) (w : World) : Except Text World :=
  match fname with
  | none => Except.ok w
  | some fname =>
    match w.files fname with
    | none => FatalError ("Cannot open file ".toList ++ fname ++ " for copying".toList)
    | some in_fp => Except.ok (AppendFile.loop out_fp (in_fp.length + 1) in_fp w)

/-- The block loop of `CompareFiles` over the unread rests of the two files. -/
def CompareFiles.loop : Nat → Text → Text → Bool
  | 0, _, _ => true
  | fuel + 1, f1, f2 =>
    let b1 := f1.take 4096
    let b2 := f2.take 4096
    let l1 := b1.length
    let l2 := b2.length
    if l1 ≠ l2 || b1.take l1 ≠ b2.take l1 then false
    else if l1 ≠ 0 then CompareFiles.loop fuel (f1.drop 4096) (f2.drop 4096)
    else true

/-- Function `CompareFiles`: compare two files for identity. -/
def CompareFiles (n1 n2 : Text) (w : World) : Except Text Bool :=
  match w.files n2 with
  | none => Except.ok false
  | some f2 =>
    match w.files n1 with
    | none => FatalError ("can't open ".toList ++ n1)
    | some f1 => Except.ok (CompareFiles.loop (f1.length + 1) f1 f2)

/-- Function `std::filesystem::remove`: the named file is gone afterwards. -/
def remove (name : Text) (w : World) : World :=
  { w with files := fun n => if n = name then none else w.files n }

/-- Function `std::filesystem::rename`: the file `old_name` replaces `new_name`; renaming a file to
itself changes nothing. -/
def rename (old_name new_name : Text) (w : World) : World :=
  if old_name = new_name then w
  else { w with files := fun n => if n = new_name then w.files old_name
                                 else if n = old_name then none else w.files n }

/-- Name of the temporary output file of `main`. -/
def tmp_output : Text := "tmp2.xxx".toList

/-- The loop of `main` over the command-line arguments. -/
def main.process (LoadFromDisk : Text → Except Text IniLoadFile) :
    List Text → Globals → Except Text Globals
  | [], globals => Except.ok globals
  | argument :: rest, globals =>
    match ProcessIniFile LoadFromDisk argument globals with
    | Except.error msg => Except.error msg
    | Except.ok globals => main.process LoadFromDisk rest globals

/-- The four writes of `main` to a stream: before-file, stored output, post-amble output,
after-file. Returns the environment reached and the message of the fatal error that ended
the writes, if any. -/
def main.write (before_file after_file : Option Text) (globals : Globals) (out_fp : Stream)
    (w : World) : World × Option Text :=
  match AppendFile before_file out_fp w with
  | Except.error msg => (w, some msg)
  | Except.ok w =>
    let w := fwrite w out_fp globals._stored_output.Write
    let w := fwrite w out_fp globals._post_amble_output.Write
    match AppendFile after_file out_fp w with
    | Except.error msg => (w, some msg)
    | Except.ok w => (w, none)

/-- Function `main` after option parsing: the options `-o`, `-b`, `-a` and the remaining arguments
are given. Returns the final environment and the exit status. -/
def main (LoadFromDisk : Text → Except Text IniLoadFile)
    (output_file before_file after_file : Option Text) (arguments : List Text) (w : World) :
    World × Nat :=
  let globals : Globals :=
    { _stored_output := OutputStore.Clear { output_buffer := [] },
      _post_amble_output := OutputStore.Clear { output_buffer := [] } }
  match main.process LoadFromDisk arguments globals with
  | Except.error msg => FatalErrorI msg w
  | Except.ok globals =>
    match output_file with
    | none =>
      match main.write before_file after_file globals Stream.stdout w with
      | (w, some msg) => FatalErrorI msg w
      | (w, none) => (w, 0)
    | some output_file =>
      let w : World := { w with files := fun n => if n = tmp_output then some [] else w.files n }
      match main.write before_file after_file globals (Stream.file tmp_output) w with
      | (w, some msg) => FatalErrorI msg w
      | (w, none) =>
        match CompareFiles tmp_output output_file w with
        | Except.error msg => FatalErrorI msg w
        | Except.ok true => (remove tmp_output w, 0)
        | Except.ok false => (rename tmp_output output_file w, 0)

/-! ## Derived notions used by the statements -/

/-- Is `c` a character of a variable name? -/
def isNameChar (c : Char) : Bool := variable_name_characters.contains c

/-- The body expansion of a template: what the body loop of `DumpLine` sends to an empty
output store when run on `template`. -/
def bodyExpansion (grp : IniGroup) (default_grp : Option IniGroup) (template : Text) : Text :=
  (DumpLine.expand grp default_grp template.length { rest := template }
    { output_buffer := [] }).Write

/-- What one call of `DumpLine` sends to an empty store. -/
def renderLine (item : IniItem) (h : item.value.isSome = true) (grp : IniGroup)
    (default_grp : Option IniGroup) : Text :=
  (DumpLine item h grp default_grp { output_buffer := [] }).Write

/-- The text `DumpSections` contributes to the body output for the group `grp`: the line
rendered from the item of `templates_grp` named after the group (nothing when there is no
such item with a value). -/
def sectionLine (templates_grp : IniGroup) (default_grp : Option IniGroup) (grp : IniGroup) :
    Text :=
  match templates_grp.GetItem grp.name with
  | some template_item =>
    if h : template_item.value.isSome = true then renderLine template_item h grp default_grp
    else []
  | none => []

/-- The text `DumpSections` contributes to the validation output for the group `grp`: the
line rendered from the item of the validation group named after the group (nothing when
there is no validation group or no such item with a value). -/
def validationLine (validation_grp : Option IniGroup) (default_grp : Option IniGroup)
    (grp : IniGroup) : Text :=
  match validation_grp with
  | some validation_grp =>
    match validation_grp.GetItem grp.name with
    | some validation_item =>
      if h : validation_item.value.isSome = true then
        renderLine validation_item h grp default_grp
      else []
    | none => []
  | none => []

/-- The names of a sequence group as `DumpGroup` copies them: every non-empty item name of
the group named `group_name`, each followed by a newline; nothing when there is no such
group or when it is no `IGT_SEQUENCE` group. -/
def groupNames (ifile : IniLoadFile) (group_name : Text) : Text :=
  match ifile.groups.find? (fun grp => decide (grp.name = group_name)) with
  | some grp =>
    if grp.type = IniGroupType.IGT_SEQUENCE then
      ((grp.items.filter (fun item => decide (item.name ≠ []))).map
        (fun item => item.name ++ "\n".toList)).flatten
    else []
  | none => []

/-- The section body of a configuration: the lines of its groups with a non-reserved name,
in configuration order; nothing without a `templates` group. -/
def sectionsBody (ifile : IniLoadFile) : Text :=
  match ifile.GetGroup TEMPLATES_GROUP_NAME with
  | some templates_grp =>
    ((ifile.groups.filter (fun g => decide (g.name ∉ special_group_names))).map
      (sectionLine templates_grp (ifile.GetGroup DEFAULTS_GROUP_NAME))).flatten
  | none => []

/-- The validation output of a configuration: the validation lines of its groups with a
non-reserved name, in configuration order; nothing without a `templates` group. -/
def sectionsValidation (ifile : IniLoadFile) : Text :=
  match ifile.GetGroup TEMPLATES_GROUP_NAME with
  | some _ =>
    ((ifile.groups.filter (fun g => decide (g.name ∉ special_group_names))).map
      (validationLine (ifile.GetGroup VALIDATION_GROUP_NAME)
        (ifile.GetGroup DEFAULTS_GROUP_NAME))).flatten
  | none => []

/-- The content `AppendFile` copies for an optional file name: nothing when no file is
named, the content of the named file otherwise (`none` when it cannot be opened). -/
def optionalFile (w : World) (fname : Option Text) : Option Text :=
  match fname with
  | none => some []
  | some fname => w.files fname

/-! ## Example inputs -/

/-- An example configuration: the template `max_speed` and the data group `max_speed` with
`name=MaxSpeed` and `value=255`; its generated text is the line `int MaxSpeed = 255;`. -/
def exampleSettings : IniLoadFile :=
  { groups := [
      { items := [{ name := "max_speed".toList, value := some "int $name = $value;".toList }],
        type := IniGroupType.IGT_VARIABLES, name := "templates".toList },
      { items := [{ name := "name".toList, value := some "MaxSpeed".toList },
                  { name := "value".toList, value := some "255".toList }],
        type := IniGroupType.IGT_VARIABLES, name := "max_speed".toList }] }

/-- An example configuration with all kinds of output: a pre-amble line `pre`, a data group
`x` with `v=value` rendered by the template `set $v;` and the validation template
`check $v;`, and a post-amble line `post`. -/
def exampleSections (pre value post : Text) : IniLoadFile :=
  { groups := [
      { items := [{ name := pre, value := none }],
        type := IniGroupType.IGT_SEQUENCE, name := "pre-amble".toList },
      { items := [{ name := "x".toList, value := some "set $v;".toList }],
        type := IniGroupType.IGT_VARIABLES, name := "templates".toList },
      { items := [{ name := "x".toList, value := some "check $v;".toList }],
        type := IniGroupType.IGT_VARIABLES, name := "validation".toList },
      { items := [{ name := "v".toList, value := some value }],
        type := IniGroupType.IGT_VARIABLES, name := "x".toList },
      { items := [{ name := post, value := none }],
        type := IniGroupType.IGT_SEQUENCE, name := "post-amble".toList }] }

/-! ## Output storage: what `Write` sends after `Add` -/

theorem OutputStore.Add.loop_flatten (fuel : Nat) :
    ∀ (output_buffer : List OutputBuffer) (text : Text), text.length ≤ fuel →
      ((OutputStore.Add.loop fuel output_buffer text).map OutputBuffer.Write).flatten
        = (output_buffer.map OutputBuffer.Write).flatten ++ text := by
  induction fuel with
  | zero =>
    intro output_buffer text h
    have : text = [] := List.length_eq_zero.mp (Nat.le_zero.mp h)
    simp [OutputStore.Add.loop, this]
  | succ fuel ih =>
    intro output_buffer text h
    cases text with
    | nil => simp [OutputStore.Add.loop]
    | cons c cs =>
      have hlen : (List.drop (min (cs.length + 1) OUTPUT_BLOCK_SIZE) (c :: cs)).length ≤ fuel := by
        have : 1 ≤ min (cs.length + 1) OUTPUT_BLOCK_SIZE := by
          simp [OUTPUT_BLOCK_SIZE]
        simp only [List.length_drop, List.length_cons] at *
        omega
      simp only [OutputStore.Add.loop, OutputBuffer.Add, OutputBuffer.Clear, OutputBuffer.size,
        List.isEmpty_cons, Bool.false_eq_true, if_false, List.length_nil, Nat.sub_zero,
        List.length_cons, List.nil_append]
      rw [ih _ _ hlen]
      simp [OutputBuffer.Write, List.take_append_drop]

theorem OutputStore.Write_Add (self : OutputStore) (text : Text) :
    (self.Add text).Write = self.Write ++ text := by
  unfold OutputStore.Add OutputStore.Write
  cases hlast : self.output_buffer.getLast? with
  | none =>
    simp only [hlast]
    exact OutputStore.Add.loop_flatten _ _ _ (Nat.le_refl _)
  | some last =>
    simp only [hlast]
    split
    · simp only [OutputBuffer.Add]
      rw [OutputStore.Add.loop_flatten _ _ _ (Nat.le_refl _)]
      have hsplit : self.output_buffer.dropLast ++ [last] = self.output_buffer :=
        List.dropLast_append_getLast? last (by simp [hlast])
      conv_rhs => rw [← hsplit]
      simp [OutputBuffer.Write, List.append_assoc, List.take_append_drop]
    · exact OutputStore.Add.loop_flatten _ _ _ (Nat.le_refl _)


/-! ## The body loop of `DumpLine` -/

theorem DumpLine.expand_nil (grp : IniGroup) (default_grp : Option IniGroup) (fuel : Nat)
    (output : OutputStore) :
    DumpLine.expand grp default_grp fuel { rest := [] } output = output := by
  cases fuel <;> simp [DumpLine.expand, StringConsumer.AnyBytesLeft]

theorem DumpLine.expand_cons (grp : IniGroup) (default_grp : Option IniGroup) (fuel : Nat)
    (c : Char) (s : Text) (output : OutputStore) :
    DumpLine.expand grp default_grp (fuel + 1) { rest := c :: s } output =
      if c ≠ '$' then DumpLine.expand grp default_grp fuel { rest := s } (output.Add [c])
      else if "$".toList.isPrefixOf s then
        DumpLine.expand grp default_grp fuel { rest := s.drop 1 } (output.Add [c])
      else if !(s.takeWhile isNameChar).isEmpty then
        match FindItemValue (s.takeWhile isNameChar) grp default_grp with
        | some valitem =>
          DumpLine.expand grp default_grp fuel { rest := s.dropWhile isNameChar } (output.Add valitem)
        | none => DumpLine.expand grp default_grp fuel { rest := s.dropWhile isNameChar } output
      else DumpLine.expand grp default_grp fuel { rest := s.dropWhile isNameChar }
        (output.Add "$".toList) := by
  have e : isNameChar = fun c => variable_name_characters.contains c := rfl
  rw [e]
  simp only [DumpLine.expand, StringConsumer.AnyBytesLeft, StringConsumer.ReadChar,
    StringConsumer.ReadIf, StringConsumer.ReadUntilCharNotIn]
  split_ifs <;> first | rfl | simp_all


theorem DumpLine.expand_Write (grp : IniGroup) (default_grp : Option IniGroup) (fuel : Nat) :
    ∀ (s : Text) (output : OutputStore),
      (DumpLine.expand grp default_grp fuel { rest := s } output).Write
        = output.Write
          ++ (DumpLine.expand grp default_grp fuel { rest := s } { output_buffer := [] }).Write := by
  induction fuel with
  | zero => intro s output; simp [DumpLine.expand, OutputStore.Write]
  | succ fuel ih =>
    intro s output
    cases s with
    | nil => simp [DumpLine.expand_nil, OutputStore.Write]
    | cons c s =>
      have hempty : ∀ t : Text, (OutputStore.Add { output_buffer := [] } t).Write = t := by
        intro t; rw [OutputStore.Write_Add]; simp [OutputStore.Write]
      rw [DumpLine.expand_cons, DumpLine.expand_cons]
      split_ifs
      · rw [ih s (output.Add [c]), ih s (OutputStore.Add _ [c]), OutputStore.Write_Add, hempty]
        simp
      · rw [ih _ (output.Add [c]), ih _ (OutputStore.Add _ [c]), OutputStore.Write_Add, hempty]
        simp
      · cases FindItemValue (s.takeWhile isNameChar) grp default_grp with
        | none => exact ih _ _
        | some valitem =>
          show (DumpLine.expand grp default_grp fuel _ (output.Add valitem)).Write
            = output.Write ++ (DumpLine.expand grp default_grp fuel _ (OutputStore.Add _ valitem)).Write
          rw [ih _ (output.Add valitem), ih _ (OutputStore.Add _ valitem), OutputStore.Write_Add,
            hempty]
          simp
      · rw [ih _ (output.Add _), ih _ (OutputStore.Add _ "$".toList), OutputStore.Write_Add, hempty]
        simp

theorem DumpLine.expand_fuel (grp : IniGroup) (default_grp : Option IniGroup) (fuel₁ : Nat) :
    ∀ (fuel₂ : Nat) (s : Text) (output : OutputStore), s.length ≤ fuel₁ → s.length ≤ fuel₂ →
      DumpLine.expand grp default_grp fuel₁ { rest := s } output
        = DumpLine.expand grp default_grp fuel₂ { rest := s } output := by
  induction fuel₁ with
  | zero =>
    intro fuel₂ s output h₁ _
    have : s = [] := List.length_eq_zero.mp (Nat.le_zero.mp h₁)
    subst this
    rw [DumpLine.expand_nil, DumpLine.expand_nil]
  | succ fuel₁ ih =>
    intro fuel₂ s output h₁ h₂
    cases s with
    | nil => rw [DumpLine.expand_nil, DumpLine.expand_nil]
    | cons c s =>
      cases fuel₂ with
      | zero => simp at h₂
      | succ fuel₂ =>
        have hs₁ : s.length ≤ fuel₁ := by simpa using h₁
        have hs₂ : s.length ≤ fuel₂ := by simpa using h₂
        have hd : (s.drop 1).length ≤ s.length := by simp
        have hw : (s.dropWhile isNameChar).length ≤ s.length :=
          (List.dropWhile_sublist _).length_le
        rw [DumpLine.expand_cons, DumpLine.expand_cons]
        split_ifs
        · exact ih _ _ _ hs₁ hs₂
        · exact ih _ _ _ (hd.trans hs₁) (hd.trans hs₂)
        · cases FindItemValue (s.takeWhile isNameChar) grp default_grp with
          | none => exact ih _ _ _ (hw.trans hs₁) (hw.trans hs₂)
          | some valitem => exact ih _ _ _ (hw.trans hs₁) (hw.trans hs₂)
        · exact ih _ _ _ (hw.trans hs₁) (hw.trans hs₂)


theorem bodyExpansion_of_fuel (grp : IniGroup) (default_grp : Option IniGroup) (fuel : Nat)
    (s : Text) (output : OutputStore) (h : s.length ≤ fuel) :
    (DumpLine.expand grp default_grp fuel { rest := s } output).Write
      = output.Write ++ bodyExpansion grp default_grp s := by
  rw [DumpLine.expand_Write, bodyExpansion,
    DumpLine.expand_fuel grp default_grp fuel s.length s _ h (Nat.le_refl _)]

theorem bodyExpansion_nil (grp : IniGroup) (default_grp : Option IniGroup) :
    bodyExpansion grp default_grp [] = [] := by
  simp [bodyExpansion, DumpLine.expand_nil, OutputStore.Write]

theorem bodyExpansion_cons (grp : IniGroup) (default_grp : Option IniGroup) (c : Char) (s : Text) :
    bodyExpansion grp default_grp (c :: s) =
      if c ≠ '$' then c :: bodyExpansion grp default_grp s
      else if "$".toList.isPrefixOf s then c :: bodyExpansion grp default_grp (s.drop 1)
      else if !(s.takeWhile isNameChar).isEmpty then
        match FindItemValue (s.takeWhile isNameChar) grp default_grp with
        | some valitem => valitem ++ bodyExpansion grp default_grp (s.dropWhile isNameChar)
        | none => bodyExpansion grp default_grp (s.dropWhile isNameChar)
      else '$' :: bodyExpansion grp default_grp (s.dropWhile isNameChar) := by
  have hd : (s.drop 1).length ≤ s.length := by simp
  have hw : (s.dropWhile isNameChar).length ≤ s.length := (List.dropWhile_sublist _).length_le
  have hempty : ∀ t : Text, (OutputStore.Add { output_buffer := [] } t).Write = t := by
    intro t; rw [OutputStore.Write_Add]; simp [OutputStore.Write]
  rw [bodyExpansion, List.length_cons, DumpLine.expand_cons]
  split_ifs
  · rw [bodyExpansion_of_fuel _ _ _ _ _ (Nat.le_refl _), hempty]; rfl
  · rw [bodyExpansion_of_fuel _ _ _ _ _ hd, hempty]; rfl
  · cases FindItemValue (s.takeWhile isNameChar) grp default_grp with
    | none =>
      show (DumpLine.expand grp default_grp s.length _ _).Write = _
      rw [bodyExpansion_of_fuel _ _ _ _ _ hw]; simp [OutputStore.Write]
    | some valitem =>
      show (DumpLine.expand grp default_grp s.length _ _).Write = _
      rw [bodyExpansion_of_fuel _ _ _ _ _ hw, hempty]
  · rw [bodyExpansion_of_fuel _ _ _ _ _ hw, hempty]; rfl


/-- The characters of `variable_name_characters` are the lowercase letters `a` to `z`, the
digits and the underscore. -/
theorem mem_variable_name_characters (c : Char) :
    c ∈ variable_name_characters ↔ (c.isLower || c.isDigit || c == '_') = true := by
  constructor
  · intro h
    simp only [variable_name_characters, String.toList, List.mem_cons, List.mem_nil_iff,
      or_false] at h
    rcases h with h | h | h | h | h | h | h | h | h | h | h | h | h | h | h | h | h | h | h
      | h | h | h | h | h | h | h | h | h | h | h | h | h | h | h | h | h | h <;> subst h <;> decide
  · intro h
    have hc : Char.ofNat c.toNat = c := Char.ofNat_toNat c
    simp only [Bool.or_eq_true, Char.isLower, Char.isDigit, Bool.and_eq_true, decide_eq_true_eq,
      beq_iff_eq] at h
    rcases h with (⟨h1, h2⟩ | ⟨h1, h2⟩) | h
    · have h1' : 97 ≤ c.toNat := h1
      have h2' : c.toNat ≤ 122 := h2
      rw [← hc]
      interval_cases c.toNat <;> decide
    · have h1' : 48 ≤ c.toNat := h1
      have h2' : c.toNat ≤ 57 := h2
      rw [← hc]
      interval_cases c.toNat <;> decide
    · subst h; decide

theorem isNameChar_iff (c : Char) : isNameChar c = true ↔ c ∈ variable_name_characters := by
  simp [isNameChar]

theorem takeWhile_name (v s : Text) (hv : ∀ c ∈ v, c ∈ variable_name_characters)
    (hs : ∀ c ∈ s.head?, c ∉ variable_name_characters) :
    (v ++ s).takeWhile isNameChar = v ∧ (v ++ s).dropWhile isNameChar = s := by
  induction v with
  | nil =>
    cases s with
    | nil => simp
    | cons c s =>
      have hc : isNameChar c = false := by
        have := hs c (by simp)
        simpa [isNameChar] using this
      simp [List.takeWhile, List.dropWhile, hc]
  | cons a v ih =>
    have ha : isNameChar a = true := (isNameChar_iff a).mpr (hv a (by simp))
    have := ih (fun c hc => hv c (List.mem_cons_of_mem _ hc))
    simp [List.takeWhile, List.dropWhile, ha, this.1, this.2]

theorem bodyExpansion_escape (grp : IniGroup) (default_grp : Option IniGroup) (s : Text) :
    bodyExpansion grp default_grp ('$' :: '$' :: s) = '$' :: bodyExpansion grp default_grp s := by
  rw [bodyExpansion_cons]
  simp

theorem bodyExpansion_variable (grp : IniGroup) (default_grp : Option IniGroup) (v s : Text)
    (hne : v ≠ []) (hv : ∀ c ∈ v, c ∈ variable_name_characters)
    (hs : ∀ c ∈ s.head?, c ∉ variable_name_characters) :
    bodyExpansion grp default_grp ('$' :: (v ++ s)) =
      (FindItemValue v grp default_grp).getD [] ++ bodyExpansion grp default_grp s := by
  obtain ⟨htake, hdrop⟩ := takeWhile_name v s hv hs
  have hpre : "$".toList.isPrefixOf (v ++ s) = false := by
    cases v with
    | nil => exact absurd rfl hne
    | cons a v =>
      have ha : a ∈ variable_name_characters := hv a (by simp)
      have : a ≠ '$' := by
        rintro rfl
        revert ha
        decide
      simp [List.isPrefixOf, this.symm]
  rw [bodyExpansion_cons, htake, hdrop, hpre]
  cases hf : FindItemValue v grp default_grp <;> simp [hne]

theorem bodyExpansion_literal_dollar (grp : IniGroup) (default_grp : Option IniGroup) (s : Text)
    (hs : ∀ c ∈ s.head?, c ≠ '$' ∧ c ∉ variable_name_characters) :
    bodyExpansion grp default_grp ('$' :: s) = '$' :: bodyExpansion grp default_grp s := by
  obtain ⟨htake, hdrop⟩ := takeWhile_name [] s (by simp) (fun c hc => (hs c hc).2)
  have hpre : "$".toList.isPrefixOf s = false := by
    cases s with
    | nil => rfl
    | cons a s =>
      have : a ≠ '$' := (hs a (by simp)).1
      simp [List.isPrefixOf, this.symm]
  simp only [List.nil_append] at htake hdrop
  rw [bodyExpansion_cons, htake, hdrop, hpre]
  simp

theorem bodyExpansion_verbatim (grp : IniGroup) (default_grp : Option IniGroup) (t s : Text)
    (ht : '$' ∉ t) :
    bodyExpansion grp default_grp (t ++ s) = t ++ bodyExpansion grp default_grp s := by
  induction t with
  | nil => rfl
  | cons c t ih =>
    have hc : c ≠ '$' := fun h => ht (by simp [h])
    have ht' : '$' ∉ t := fun h => ht (List.mem_cons_of_mem _ h)
    rw [List.cons_append, bodyExpansion_cons, if_pos hc, ih ht']
    rfl


/-! ## The guard loops and the whole of `DumpLine` -/

theorem DumpLine.guards_spec (grp : IniGroup) (default_grp : Option IniGroup) (names : List Text) :
    ∀ (output : OutputStore) (count : Nat),
      (DumpLine.guards grp default_grp names output count).1.Write
          = output.Write ++ (names.filterMap (fun k => (FindItemValue k grp default_grp).map
              (fun v => "#".toList ++ k ++ " ".toList ++ v ++ "\n".toList))).flatten
      ∧ (DumpLine.guards grp default_grp names output count).2
          = count + (names.filterMap (fun k => (FindItemValue k grp default_grp).map
              (fun v => "#".toList ++ k ++ " ".toList ++ v ++ "\n".toList))).length := by
  induction names with
  | nil => intro output count; simp [DumpLine.guards]
  | cons name names ih =>
    intro output count
    cases hf : FindItemValue name grp default_grp with
    | none => simpa [DumpLine.guards, hf, List.filterMap_cons] using ih output count
    | some condition =>
      simp only [DumpLine.guards, hf, List.filterMap_cons, Option.map_some', List.flatten_cons,
        List.length_cons]
      obtain ⟨h₁, h₂⟩ := ih (((((output.Add "#".toList).Add name).Add " ".toList).Add
        condition).Add "\n".toList) (count + 1)
      refine ⟨?_, ?_⟩
      · rw [h₁]
        simp only [OutputStore.Write_Add, List.append_assoc]
      · rw [h₂]; omega

theorem DumpLine.endifs_Write (count : Nat) :
    ∀ output : OutputStore, (DumpLine.endifs count output).Write
      = output.Write ++ (List.replicate count "#endif\n".toList).flatten := by
  induction count with
  | zero => intro output; simp [DumpLine.endifs]
  | succ count ih =>
    intro output
    rw [DumpLine.endifs, ih, OutputStore.Write_Add, List.replicate_succ, List.flatten_cons,
      List.append_assoc]

theorem DumpLine_Write (item : IniItem) (h : item.value.isSome = true) (grp : IniGroup)
    (default_grp : Option IniGroup) (output : OutputStore) :
    (DumpLine item h grp default_grp output).Write
      = output.Write
        ++ (pp_lines.filterMap (fun k => (FindItemValue k grp default_grp).map
              (fun v => "#".toList ++ k ++ " ".toList ++ v ++ "\n".toList))).flatten
        ++ bodyExpansion grp default_grp (item.value.get h)
        ++ "\n".toList
        ++ (List.replicate (pp_lines.filterMap (fun k => (FindItemValue k grp default_grp).map
              (fun v => "#".toList ++ k ++ " ".toList ++ v ++ "\n".toList))).length
            "#endif\n".toList).flatten := by
  obtain ⟨h₁, h₂⟩ := DumpLine.guards_spec grp default_grp pp_lines output 0
  unfold DumpLine
  simp only
  rw [DumpLine.endifs_Write, OutputStore.Write_Add,
    bodyExpansion_of_fuel _ _ _ _ _ (Nat.le_refl _), h₁, h₂, Nat.zero_add]

theorem DumpLine_Write_renderLine (item : IniItem) (h : item.value.isSome = true) (grp : IniGroup)
    (default_grp : Option IniGroup) (output : OutputStore) :
    (DumpLine item h grp default_grp output).Write
      = output.Write ++ renderLine item h grp default_grp := by
  rw [renderLine, DumpLine_Write, DumpLine_Write]
  simp [OutputStore.Write, List.append_assoc]


theorem IniGroup.GetItem.find_eq (name : Text) (items : List IniItem) :
    IniGroup.GetItem.find name items = items.find? (fun item => decide (item.name = name)) := by
  induction items with
  | nil => rfl
  | cons item rest ih =>
    by_cases h : item.name = name <;> simp [IniGroup.GetItem.find, List.find?, h, ih]

/-! ## The group loop of `DumpSections` -/

theorem DumpSections.loop_special (default_grp : Option IniGroup) (templates_grp : IniGroup)
    (validation_grp : Option IniGroup) (grp : IniGroup) (rest : List IniGroup) (globals : Globals)
    (h : grp.name ∈ special_group_names) :
    DumpSections.loop default_grp templates_grp validation_grp (grp :: rest) globals
      = DumpSections.loop default_grp templates_grp validation_grp rest globals := by
  have hc : special_group_names.contains grp.name = true := by simpa using h
  simp only [DumpSections.loop, hc, if_true]

theorem DumpSections.loop_missing (default_grp : Option IniGroup) (templates_grp : IniGroup)
    (validation_grp : Option IniGroup) (grp : IniGroup) (rest : List IniGroup) (globals : Globals)
    (h : grp.name ∉ special_group_names)
    (hmiss : ((templates_grp.GetItem grp.name).bind (fun item => item.value)).isNone = true) :
    DumpSections.loop default_grp templates_grp validation_grp (grp :: rest) globals
      = Except.error ("Cannot find template ".toList ++ grp.name) := by
  have hc : special_group_names.contains grp.name = false := by simpa using h
  cases hitem : templates_grp.GetItem grp.name with
  | none => simp only [DumpSections.loop, hc, hitem, FatalError]; rfl
  | some item =>
    rw [hitem] at hmiss
    have hval : ¬ (item.value.isSome = true) := by
      cases hv : item.value <;> simp_all
    simp only [DumpSections.loop, hc, hitem, dif_neg hval, FatalError]
    rfl

theorem DumpSections.loop_render (default_grp : Option IniGroup) (templates_grp : IniGroup)
    (validation_grp : Option IniGroup) (grp : IniGroup) (rest : List IniGroup) (globals : Globals)
    (h : grp.name ∉ special_group_names) (item : IniItem)
    (hitem : templates_grp.GetItem grp.name = some item) (hval : item.value.isSome = true) :
    ∃ globals₁ : Globals,
      DumpSections.loop default_grp templates_grp validation_grp (grp :: rest) globals
        = DumpSections.loop default_grp templates_grp validation_grp rest globals₁
      ∧ globals₁._stored_output = DumpLine item hval grp default_grp globals._stored_output := by
  have hc : special_group_names.contains grp.name = false := by simpa using h
  simp only [DumpSections.loop, hc, hitem, dif_pos hval]
  refine ⟨_, rfl, ?_⟩
  cases validation_grp with
  | none => rfl
  | some validation_grp =>
    cases hv : validation_grp.GetItem grp.name with
    | none => simp only [hv]
    | some validation_item =>
      simp only [hv]
      split <;> rfl

theorem sectionLine_eq (templates_grp : IniGroup) (default_grp : Option IniGroup) (grp : IniGroup)
    (item : IniItem) (hitem : templates_grp.GetItem grp.name = some item)
    (hval : item.value.isSome = true) :
    sectionLine templates_grp default_grp grp = renderLine item hval grp default_grp := by
  simp only [sectionLine, hitem, dif_pos hval]

theorem DumpSections.loop_stored (default_grp : Option IniGroup) (templates_grp : IniGroup)
    (validation_grp : Option IniGroup) (groups : List IniGroup) :
    ∀ globals : Globals,
      (∀ g ∈ groups, g.name ∉ special_group_names →
        ((templates_grp.GetItem g.name).bind (fun item => item.value)).isSome = true) →
      ∃ globals' : Globals,
        DumpSections.loop default_grp templates_grp validation_grp groups globals
          = Except.ok globals'
        ∧ globals'._stored_output.Write = globals._stored_output.Write
            ++ ((groups.filter (fun g => decide (g.name ∉ special_group_names))).map
                  (sectionLine templates_grp default_grp)).flatten := by
  induction groups with
  | nil => intro globals _; exact ⟨globals, rfl, by simp⟩
  | cons grp rest ih =>
    intro globals hall
    have hrest : ∀ g ∈ rest, g.name ∉ special_group_names →
        ((templates_grp.GetItem g.name).bind (fun item => item.value)).isSome = true :=
      fun g hg => hall g (List.mem_cons_of_mem _ hg)
    by_cases h : grp.name ∈ special_group_names
    · obtain ⟨globals', hok, hw⟩ := ih globals hrest
      refine ⟨globals', ?_, ?_⟩
      · rw [DumpSections.loop_special _ _ _ _ _ _ h, hok]
      · rw [hw, List.filter_cons_of_neg (by simpa using h)]
    · obtain ⟨item, hitem, hval⟩ : ∃ item, templates_grp.GetItem grp.name = some item
          ∧ item.value.isSome = true := by
        have hb := hall grp (List.mem_cons_self _ _) h
        cases hitem : templates_grp.GetItem grp.name with
        | none => rw [hitem] at hb; simp at hb
        | some item => rw [hitem] at hb; exact ⟨item, rfl, by simpa using hb⟩
      obtain ⟨globals₁, hstep, hout⟩ :=
        DumpSections.loop_render default_grp templates_grp validation_grp grp rest globals h
          item hitem hval
      obtain ⟨globals', hok, hw⟩ := ih globals₁ hrest
      refine ⟨globals', ?_, ?_⟩
      · rw [hstep, hok]
      · rw [hw, hout, DumpLine_Write_renderLine, List.filter_cons_of_pos (by simpa using h),
          List.map_cons, List.flatten_cons, sectionLine_eq _ _ _ item hitem hval,
          List.append_assoc]

theorem DumpSections.loop_first_missing (default_grp : Option IniGroup) (templates_grp : IniGroup)
    (validation_grp : Option IniGroup) (grp : IniGroup) (groups : List IniGroup) :
    ∀ globals : Globals,
      groups.find? (fun g => decide (g.name ∉ special_group_names)
          && ((templates_grp.GetItem g.name).bind (fun item => item.value)).isNone) = some grp →
      DumpSections.loop default_grp templates_grp validation_grp groups globals
        = Except.error ("Cannot find template ".toList ++ grp.name) := by
  induction groups with
  | nil => intro globals h; simp at h
  | cons g rest ih =>
    intro globals hfind
    by_cases hsp : g.name ∈ special_group_names
    · rw [DumpSections.loop_special _ _ _ _ _ _ hsp]
      apply ih
      simpa [List.find?, hsp] using hfind
    · by_cases hmiss :
          ((templates_grp.GetItem g.name).bind (fun item => item.value)).isNone = true
      · have hg : g = grp := by simpa [List.find?, hsp, hmiss] using hfind
        rw [← hg]
        exact DumpSections.loop_missing _ _ _ _ _ _ hsp hmiss
      · have hrest : rest.find? (fun g => decide (g.name ∉ special_group_names)
            && ((templates_grp.GetItem g.name).bind (fun item => item.value)).isNone)
            = some grp := by
          simpa [List.find?, hsp, hmiss] using hfind
        cases hitem : templates_grp.GetItem g.name with
        | none => rw [hitem] at hmiss; exact absurd rfl hmiss
        | some item =>
          rw [hitem] at hmiss
          have hval : item.value.isSome = true := by
            cases hv : item.value <;> simp_all
          obtain ⟨globals₁, hstep, _⟩ :=
            DumpSections.loop_render default_grp templates_grp validation_grp g rest globals hsp
              item hitem hval
          rw [hstep]
          exact ih globals₁ hrest

/-! ## The claims -/

/-- C1: for every template item that has a value, every group and every optional defaults
group, what `DumpLine` appends to the output is: for each keyword `k` of `if`, `ifdef`,
`ifndef`, in this order, for which `FindItemValue k` yields a value `v`, the line
`#k v` with a newline; then the body expansion of the template; then one newline; then one
`#endif` line per guard line emitted. There are at most three guard lines. -/
theorem DumpLine_output_shape (name template : Text) (grp : IniGroup)
    (default_grp : Option IniGroup) (output : OutputStore) :
    (DumpLine { name := name, value := some template } rfl grp default_grp output).Write
      = output.Write
        ++ (["if".toList, "ifdef".toList, "ifndef".toList].filterMap
              (fun k => (FindItemValue k grp default_grp).map
                (fun v => "#".toList ++ k ++ " ".toList ++ v ++ "\n".toList))).flatten
        ++ bodyExpansion grp default_grp template
        ++ "\n".toList
        ++ (List.replicate
              (["if".toList, "ifdef".toList, "ifndef".toList].filterMap
                (fun k => (FindItemValue k grp default_grp).map
                  (fun v => "#".toList ++ k ++ " ".toList ++ v ++ "\n".toList))).length
              "#endif\n".toList).flatten
    ∧ (["if".toList, "ifdef".toList, "ifndef".toList].filterMap
        (fun k => (FindItemValue k grp default_grp).map
          (fun v => "#".toList ++ k ++ " ".toList ++ v ++ "\n".toList))).length ≤ 3 :=
  ⟨DumpLine_Write _ _ _ _ _, List.length_filterMap_le _ _⟩

/-- C2: rendering the template `int $name = $value;` against a group with the items
`name=MaxSpeed`, `value=255`, `ifdef=FEATURE_X` and no defaults group appends exactly
the three lines `#ifdef FEATURE_X`, `int MaxSpeed = 255;`, `#endif`. -/
theorem DumpLine_example_ifdef (item_name group_name : Text) (type : IniGroupType)
    (output : OutputStore) :
    (DumpLine { name := item_name, value := some "int $name = $value;".toList } rfl
        { items := [{ name := "name".toList, value := some "MaxSpeed".toList },
                    { name := "value".toList, value := some "255".toList },
                    { name := "ifdef".toList, value := some "FEATURE_X".toList }],
          type := type, name := group_name }
        none output).Write
      = output.Write ++ "#ifdef FEATURE_X\nint MaxSpeed = 255;\n#endif\n".toList := by
  rw [DumpLine_Write_renderLine]
  congr 1

/-- C3: for every group, defaults group and text `s`, the body expansion of `$$` followed by
`s` is one literal `$` followed by the body expansion of `s`; when `s` is a run of name
characters the result is the literal text `$` followed by `s`, whatever `s` is bound to. -/
theorem bodyExpansion_dollar_dollar (grp : IniGroup) (default_grp : Option IniGroup) :
    (∀ s : Text, bodyExpansion grp default_grp ("$$".toList ++ s)
        = "$".toList ++ bodyExpansion grp default_grp s)
    ∧ (∀ s : Text, (∀ c ∈ s, c ∈ variable_name_characters) →
        bodyExpansion grp default_grp ("$$".toList ++ s) = "$".toList ++ s) := by
  refine ⟨fun s => bodyExpansion_escape grp default_grp s, fun s hs => ?_⟩
  have hd : '$' ∉ s := by
    intro h
    have := hs _ h
    revert this
    decide
  have := bodyExpansion_verbatim grp default_grp s [] hd
  rw [List.append_nil, bodyExpansion_nil, List.append_nil] at this
  show bodyExpansion grp default_grp ('$' :: '$' :: s) = '$' :: s
  rw [bodyExpansion_escape, this]

/-- Witness of C3: with `name` bound to `MaxSpeed`, the template `$$name` expands to the
literal text `$name`. -/
theorem bodyExpansion_dollar_dollar_witness :
    (∀ c ∈ "name".toList, c ∈ variable_name_characters)
    ∧ FindItemValue "name".toList
        { items := [{ name := "name".toList, value := some "MaxSpeed".toList }],
          type := IniGroupType.IGT_VARIABLES, name := "max_speed".toList } none
        = some "MaxSpeed".toList
    ∧ bodyExpansion
        { items := [{ name := "name".toList, value := some "MaxSpeed".toList }],
          type := IniGroupType.IGT_VARIABLES, name := "max_speed".toList } none
        ("$$".toList ++ "name".toList) = "$".toList ++ "name".toList :=
  ⟨by decide, by decide,
    (bodyExpansion_dollar_dollar _ none).2 "name".toList (by decide)⟩

/-- C4: for a non-empty run `v` of name characters followed by a text `s` that is empty or
starts with a character that is no name character, if `FindItemValue v` yields `x` then
the body expansion of `$v` followed by `s` is `x`, verbatim, followed by the body expansion
of `s`. -/
theorem bodyExpansion_resolved_variable (grp : IniGroup) (default_grp : Option IniGroup)
    (v s x : Text) (hne : v ≠ []) (hv : ∀ c ∈ v, c ∈ variable_name_characters)
    (hs : ∀ c ∈ s.head?, c ∉ variable_name_characters)
    (hx : FindItemValue v grp default_grp = some x) :
    bodyExpansion grp default_grp ("$".toList ++ v ++ s) = x ++ bodyExpansion grp default_grp s := by
  have := bodyExpansion_variable grp default_grp v s hne hv hs
  rw [hx] at this
  exact this

/-- Witness of C4: `$a` at the end of the input, with `a` bound to the text `$a`, expands to
`$a` once and is not expanded again. -/
theorem bodyExpansion_resolved_variable_witness :
    "a".toList ≠ [] ∧ (∀ c ∈ "a".toList, c ∈ variable_name_characters)
    ∧ (∀ c ∈ ([] : Text).head?, c ∉ variable_name_characters)
    ∧ FindItemValue "a".toList
        { items := [{ name := "a".toList, value := some "$a".toList }],
          type := IniGroupType.IGT_VARIABLES, name := "g".toList } none = some "$a".toList
    ∧ bodyExpansion
        { items := [{ name := "a".toList, value := some "$a".toList }],
          type := IniGroupType.IGT_VARIABLES, name := "g".toList } none
        ("$".toList ++ "a".toList ++ [])
      = "$a".toList ++ bodyExpansion
        { items := [{ name := "a".toList, value := some "$a".toList }],
          type := IniGroupType.IGT_VARIABLES, name := "g".toList } none [] :=
  ⟨by decide, by decide, by simp, by decide,
    bodyExpansion_resolved_variable _ none "a".toList [] "$a".toList (by decide) (by decide)
      (by simp) (by decide)⟩

/-- C5: for a non-empty run `v` of name characters followed by a text `s` that is empty or
starts with a character that is no name character, if `FindItemValue v` yields no value
then the body expansion of `$v` followed by `s` is the body expansion of `s`: the reference
contributes no character. -/
theorem bodyExpansion_unresolved_variable (grp : IniGroup) (default_grp : Option IniGroup)
    (v s : Text) (hne : v ≠ []) (hv : ∀ c ∈ v, c ∈ variable_name_characters)
    (hs : ∀ c ∈ s.head?, c ∉ variable_name_characters)
    (hx : FindItemValue v grp default_grp = none) :
    bodyExpansion grp default_grp ("$".toList ++ v ++ s) = bodyExpansion grp default_grp s := by
  have := bodyExpansion_variable grp default_grp v s hne hv hs
  rw [hx] at this
  exact this

/-- Witness of C5: in a group without items, `$x;` expands like `;`. -/
theorem bodyExpansion_unresolved_variable_witness :
    "x".toList ≠ [] ∧ (∀ c ∈ "x".toList, c ∈ variable_name_characters)
    ∧ (∀ c ∈ ";".toList.head?, c ∉ variable_name_characters)
    ∧ FindItemValue "x".toList
        { items := [], type := IniGroupType.IGT_VARIABLES, name := "g".toList } none = none
    ∧ bodyExpansion { items := [], type := IniGroupType.IGT_VARIABLES, name := "g".toList } none
        ("$".toList ++ "x".toList ++ ";".toList)
      = bodyExpansion { items := [], type := IniGroupType.IGT_VARIABLES, name := "g".toList } none
        ";".toList :=
  ⟨by decide, by decide, by decide, by decide,
    bodyExpansion_unresolved_variable _ none "x".toList ";".toList (by decide) (by decide)
      (by decide) (by decide)⟩

/-- C6: for a text `s` that is empty or starts with a character that is neither `$` nor a
name character, the body expansion of `$` followed by `s` is a literal `$` followed by the
body expansion of `s`; in particular a text without `$` followed by a final `$` expands to
itself. -/
theorem bodyExpansion_lone_dollar (grp : IniGroup) (default_grp : Option IniGroup) :
    (∀ s : Text, (∀ c ∈ s.head?, c ≠ '$' ∧ c ∉ variable_name_characters) →
        bodyExpansion grp default_grp ("$".toList ++ s)
          = "$".toList ++ bodyExpansion grp default_grp s)
    ∧ (∀ t : Text, '$' ∉ t →
        bodyExpansion grp default_grp (t ++ "$".toList) = t ++ "$".toList) := by
  refine ⟨fun s hs => bodyExpansion_literal_dollar grp default_grp s hs, fun t ht => ?_⟩
  rw [bodyExpansion_verbatim grp default_grp t _ ht]
  show t ++ bodyExpansion grp default_grp ('$' :: []) = _
  rw [bodyExpansion_literal_dollar grp default_grp [] (by simp), bodyExpansion_nil]
  rfl

/-- Witness of C6: `$` before an uppercase letter, and `$` at the end of `cost $`. -/
theorem bodyExpansion_lone_dollar_witness :
    (∀ c ∈ "X".toList.head?, c ≠ '$' ∧ c ∉ variable_name_characters)
    ∧ bodyExpansion { items := [], type := IniGroupType.IGT_VARIABLES, name := "g".toList } none
        ("$".toList ++ "X".toList)
      = "$".toList ++ bodyExpansion
          { items := [], type := IniGroupType.IGT_VARIABLES, name := "g".toList } none "X".toList
    ∧ '$' ∉ "cost ".toList
    ∧ bodyExpansion { items := [], type := IniGroupType.IGT_VARIABLES, name := "g".toList } none
        ("cost ".toList ++ "$".toList) = "cost ".toList ++ "$".toList :=
  ⟨by decide, (bodyExpansion_lone_dollar _ none).1 "X".toList (by decide), by decide,
    (bodyExpansion_lone_dollar _ none).2 "cost ".toList (by decide)⟩

/-- C7: for a template text `t` without `$` and a group and defaults group in which none of
`if`, `ifdef`, `ifndef` resolves, `DumpLine` appends exactly `t` and one newline, also when
`t` is empty or itself ends in a newline. -/
theorem DumpLine_plain_text (name t : Text) (grp : IniGroup) (default_grp : Option IniGroup)
    (output : OutputStore) (ht : '$' ∉ t)
    (h_if : FindItemValue "if".toList grp default_grp = none)
    (h_ifdef : FindItemValue "ifdef".toList grp default_grp = none)
    (h_ifndef : FindItemValue "ifndef".toList grp default_grp = none) :
    (DumpLine { name := name, value := some t } rfl grp default_grp output).Write
      = output.Write ++ t ++ "\n".toList := by
  have hb := bodyExpansion_verbatim grp default_grp t [] ht
  rw [List.append_nil, bodyExpansion_nil, List.append_nil] at hb
  have hf : pp_lines.filterMap (fun k => (FindItemValue k grp default_grp).map
      (fun v => "#".toList ++ k ++ " ".toList ++ v ++ "\n".toList)) = [] := by
    simp only [pp_lines, List.filterMap_cons, List.filterMap_nil, h_if, h_ifdef, h_ifndef,
      Option.map_none']
  rw [DumpLine_Write, hf]
  show output.Write ++ [].flatten ++ bodyExpansion grp default_grp t ++ "\n".toList
      ++ (List.replicate 0 "#endif\n".toList).flatten = _
  rw [hb]
  simp

/-- Witness of C7: a template that ends in a newline gives an output that ends in two. -/
theorem DumpLine_plain_text_witness :
    '$' ∉ "end\n".toList
    ∧ (DumpLine { name := "t".toList, value := some "end\n".toList } rfl
        { items := [], type := IniGroupType.IGT_VARIABLES, name := "g".toList } none
        { output_buffer := [] }).Write
      = (OutputStore.mk []).Write ++ "end\n".toList ++ "\n".toList :=
  ⟨by decide,
    DumpLine_plain_text "t".toList "end\n".toList
      { items := [], type := IniGroupType.IGT_VARIABLES, name := "g".toList } none
      { output_buffer := [] } (by decide) (by decide) (by decide) (by decide)⟩

/-- C8: for every name, group and optional defaults group, `FindItemValue` is the value of
the first item of the group with that name when there is one; otherwise, when a defaults
group is supplied and has an item of that name, the value of the first such item of the
defaults group; otherwise absent. It is a total function: not finding the name is the
result `none`, not an error. -/
theorem FindItemValue_first_match (name : Text) (grp : IniGroup) (defaults : Option IniGroup) :
    FindItemValue name grp defaults =
      match grp.items.find? (fun item => decide (item.name = name)) with
      | some item => item.value
      | none =>
        match defaults with
        | some defaults =>
          match defaults.items.find? (fun item => decide (item.name = name)) with
          | some item => item.value
          | none => none
        | none => none := by
  unfold FindItemValue IniGroup.GetItem
  rw [IniGroup.GetItem.find_eq]
  cases hg : grp.items.find? (fun item => decide (item.name = name)) with
  | some item => cases defaults <;> rfl
  | none =>
    cases defaults with
    | none => rfl
    | some defaults =>
      simp only [IniGroup.GetItem.find_eq]
      cases defaults.items.find? (fun item => decide (item.name = name)) <;> rfl

theorem main.process_append_error (LoadFromDisk : Text → Except Text IniLoadFile) (fname : Text)
    (rest : List Text) (msg : Text) (done : List Text) :
    ∀ globals globals' : Globals,
      main.process LoadFromDisk done globals = Except.ok globals' →
      ProcessIniFile LoadFromDisk fname globals' = Except.error msg →
      main.process LoadFromDisk (done ++ fname :: rest) globals = Except.error msg := by
  induction done with
  | nil =>
    intro globals globals' hdone herr
    simp only [main.process] at hdone
    cases hdone
    simp only [List.nil_append, main.process, herr]
  | cons a done ih =>
    intro globals globals' hdone herr
    simp only [List.cons_append, main.process] at hdone ⊢
    cases ha : ProcessIniFile LoadFromDisk a globals with
    | error e => rw [ha] at hdone; cases hdone
    | ok globals₁ =>
      rw [ha] at hdone
      exact ih globals₁ globals' hdone herr

/-- C9: in a configuration with a `templates` group, let `grp` be the first group, in
configuration order, whose name is none of the five reserved names and for which the
`templates` group has no item of that name with a value. Then `DumpSections` ends in the
fatal error `Cannot find template` followed by the name of `grp`, and a run of `main` that
reaches this configuration ends with exit status 1, the message on the error stream,
nothing written to the standard output and every file as it was. -/
theorem DumpSections_missing_template (ifile : IniLoadFile) (templates_grp grp : IniGroup)
    (ht : ifile.GetGroup "templates".toList = some templates_grp)
    (hfirst : ifile.groups.find? (fun g =>
        decide (g.name ∉ ["pre-amble".toList, "post-amble".toList, "defaults".toList,
          "templates".toList, "validation".toList])
        && ((templates_grp.GetItem g.name).bind (fun item => item.value)).isNone) = some grp) :
    (∀ globals : Globals,
      DumpSections ifile globals = Except.error ("Cannot find template ".toList ++ grp.name))
    ∧ (∀ (LoadFromDisk : Text → Except Text IniLoadFile)
        (output_file before_file after_file : Option Text) (done : List Text) (fname : Text)
        (rest : List Text) (globals : Globals) (w : World),
        main.process LoadFromDisk done
            { _stored_output := { output_buffer := [] },
              _post_amble_output := { output_buffer := [] } } = Except.ok globals →
        LoadFromDisk fname = Except.ok ifile →
        main LoadFromDisk output_file before_file after_file (done ++ fname :: rest) w
          = ({ files := w.files, stdout := w.stdout,
               stderr := w.stderr ++ "settingsgen: FATAL: ".toList
                 ++ ("Cannot find template ".toList ++ grp.name) ++ "\n".toList }, 1)) := by
  have hdump : ∀ globals : Globals,
      DumpSections ifile globals = Except.error ("Cannot find template ".toList ++ grp.name) := by
    intro globals
    have ht' : ifile.GetGroup TEMPLATES_GROUP_NAME = some templates_grp := ht
    simp only [DumpSections, ht']
    exact DumpSections.loop_first_missing _ _ _ grp ifile.groups globals hfirst
  refine ⟨hdump, ?_⟩
  intro LoadFromDisk output_file before_file after_file done fname rest globals w hdone hload
  have herr : ProcessIniFile LoadFromDisk fname globals
      = Except.error ("Cannot find template ".toList ++ grp.name) := by
    simp only [ProcessIniFile, hload, hdump]
  have hproc := main.process_append_error LoadFromDisk fname rest _ done _ _ hdone herr
  simp only [main, OutputStore.Clear, hproc, FatalErrorI]

/-- Witness of C9: the data group `max_speed` has no template in a `templates` group that
only holds `speed`; `DumpSections` stops with the fatal error, and a run on this
configuration with the output file `out` exits with status 1 and creates no file. -/
theorem DumpSections_missing_template_witness :
    DumpSections
        { groups := [
            { items := [{ name := "speed".toList, value := some "int $name;".toList }],
              type := IniGroupType.IGT_VARIABLES, name := "templates".toList },
            { items := [{ name := "name".toList, value := some "MaxSpeed".toList }],
              type := IniGroupType.IGT_VARIABLES, name := "max_speed".toList }] }
        { _stored_output := { output_buffer := [] }, _post_amble_output := { output_buffer := [] } }
      = Except.error "Cannot find template max_speed".toList
    ∧ main (fun _ => Except.ok
        { groups := [
            { items := [{ name := "speed".toList, value := some "int $name;".toList }],
              type := IniGroupType.IGT_VARIABLES, name := "templates".toList },
            { items := [{ name := "name".toList, value := some "MaxSpeed".toList }],
              type := IniGroupType.IGT_VARIABLES, name := "max_speed".toList }] })
        (some "out".toList) none none ["a.ini".toList]
        { files := fun _ => none, stdout := [], stderr := [] }
      = ({ files := fun _ => none, stdout := [],
           stderr := "settingsgen: FATAL: Cannot find template max_speed\n".toList }, 1) :=
  ⟨(DumpSections_missing_template
      { groups := [
          { items := [{ name := "speed".toList, value := some "int $name;".toList }],
            type := IniGroupType.IGT_VARIABLES, name := "templates".toList },
          { items := [{ name := "name".toList, value := some "MaxSpeed".toList }],
            type := IniGroupType.IGT_VARIABLES, name := "max_speed".toList }] }
      { items := [{ name := "speed".toList, value := some "int $name;".toList }],
        type := IniGroupType.IGT_VARIABLES, name := "templates".toList }
      { items := [{ name := "name".toList, value := some "MaxSpeed".toList }],
        type := IniGroupType.IGT_VARIABLES, name := "max_speed".toList }
      (by decide) (by decide)).1 _,
   (DumpSections_missing_template
      { groups := [
          { items := [{ name := "speed".toList, value := some "int $name;".toList }],
            type := IniGroupType.IGT_VARIABLES, name := "templates".toList },
          { items := [{ name := "name".toList, value := some "MaxSpeed".toList }],
            type := IniGroupType.IGT_VARIABLES, name := "max_speed".toList }] }
      { items := [{ name := "speed".toList, value := some "int $name;".toList }],
        type := IniGroupType.IGT_VARIABLES, name := "templates".toList }
      { items := [{ name := "name".toList, value := some "MaxSpeed".toList }],
        type := IniGroupType.IGT_VARIABLES, name := "max_speed".toList }
      (by decide) (by decide)).2 _ (some "out".toList) none none [] "a.ini".toList [] _
        { files := fun _ => none, stdout := [], stderr := [] } rfl rfl⟩

/-- C10: in a configuration with a `templates` group in which every group with a
non-reserved name has a template item with a value, `DumpSections` succeeds and appends to
the body output exactly the lines rendered by `DumpLine` for the groups whose name is none
of the five reserved names, in configuration order; the line of a group is what `DumpLine`
renders from the template item named after the group, the group and the defaults group. -/
theorem DumpSections_body_output (ifile : IniLoadFile) (templates_grp : IniGroup)
    (ht : ifile.GetGroup "templates".toList = some templates_grp)
    (hall : ∀ g ∈ ifile.groups,
      g.name ∉ ["pre-amble".toList, "post-amble".toList, "defaults".toList,
        "templates".toList, "validation".toList] →
      ((templates_grp.GetItem g.name).bind (fun item => item.value)).isSome = true)
    (globals : Globals) :
    (∃ globals' : Globals, DumpSections ifile globals = Except.ok globals'
      ∧ globals'._stored_output.Write = globals._stored_output.Write
          ++ ((ifile.groups.filter (fun g =>
                decide (g.name ∉ ["pre-amble".toList, "post-amble".toList, "defaults".toList,
                  "templates".toList, "validation".toList]))).map
                (sectionLine templates_grp (ifile.GetGroup "defaults".toList))).flatten)
    ∧ (∀ (g : IniGroup) (item : IniItem) (h : item.value.isSome = true),
        templates_grp.GetItem g.name = some item →
        sectionLine templates_grp (ifile.GetGroup "defaults".toList) g
          = (DumpLine item h g (ifile.GetGroup "defaults".toList) { output_buffer := [] }).Write) := by
  refine ⟨?_, fun g item h hitem => sectionLine_eq _ _ _ item hitem h⟩
  have ht' : ifile.GetGroup TEMPLATES_GROUP_NAME = some templates_grp := ht
  simp only [DumpSections, ht']
  exact DumpSections.loop_stored _ templates_grp _ ifile.groups globals hall

/-- Witness of C10: the group `defaults` renders nothing although the `templates` group has
an item of that name; the group `max_speed` renders its template with the default value. -/
theorem DumpSections_body_output_witness :
    ∃ globals' : Globals,
      DumpSections
          { groups := [
              { items := [{ name := "max_speed".toList, value := some "int $name;".toList },
                          { name := "defaults".toList, value := some "never".toList }],
                type := IniGroupType.IGT_VARIABLES, name := "templates".toList },
              { items := [{ name := "name".toList, value := some "Speed".toList }],
                type := IniGroupType.IGT_VARIABLES, name := "defaults".toList },
              { items := [], type := IniGroupType.IGT_VARIABLES, name := "max_speed".toList }] }
          { _stored_output := { output_buffer := [] },
            _post_amble_output := { output_buffer := [] } } = Except.ok globals'
      ∧ globals'._stored_output.Write = "int Speed;\n".toList := by
  obtain ⟨globals', hok, hw⟩ := (DumpSections_body_output
      { groups := [
          { items := [{ name := "max_speed".toList, value := some "int $name;".toList },
                      { name := "defaults".toList, value := some "never".toList }],
            type := IniGroupType.IGT_VARIABLES, name := "templates".toList },
          { items := [{ name := "name".toList, value := some "Speed".toList }],
            type := IniGroupType.IGT_VARIABLES, name := "defaults".toList },
          { items := [], type := IniGroupType.IGT_VARIABLES, name := "max_speed".toList }] }
      { items := [{ name := "max_speed".toList, value := some "int $name;".toList },
                  { name := "defaults".toList, value := some "never".toList }],
        type := IniGroupType.IGT_VARIABLES, name := "templates".toList }
      (by decide) (by decide)
      { _stored_output := { output_buffer := [] },
        _post_amble_output := { output_buffer := [] } }).1
  exact ⟨globals', hok, hw.trans (by decide)⟩

/-! ## Group dump, validation output, blocks, files and the driver -/

theorem IniLoadFile.GetGroup.find_first (name : Text) (groups : List IniGroup) :
    IniLoadFile.GetGroup.find name groups = groups.find? (fun grp => decide (grp.name = name)) := by
  induction groups with
  | nil => rfl
  | cons grp rest ih =>
    by_cases h : grp.name = name <;> simp [IniLoadFile.GetGroup.find, List.find?, h, ih]

theorem DumpGroup.items_Write (items : List IniItem) :
    ∀ output : OutputStore, (DumpGroup.items items output).Write
      = output.Write ++ ((items.filter (fun item => decide (item.name ≠ []))).map
          (fun item => item.name ++ "\n".toList)).flatten := by
  induction items with
  | nil => intro output; simp [DumpGroup.items]
  | cons item rest ih =>
    intro output
    by_cases h : item.name = []
    · simp [DumpGroup.items, h, ih]
    · have hne : item.name.isEmpty = false := by
        cases hn : item.name with
        | nil => exact absurd hn h
        | cons a l => rfl
      simp only [DumpGroup.items, hne, Bool.not_false, if_true]
      rw [ih, OutputStore.Write_Add, OutputStore.Write_Add,
        List.filter_cons_of_pos (by simpa using h), List.map_cons, List.flatten_cons]
      simp only [List.append_assoc]

theorem DumpGroup_Write (ifile : IniLoadFile) (group_name : Text) (globals : Globals) :
    (DumpGroup ifile group_name globals)._stored_output.Write
        = globals._stored_output.Write ++ groupNames ifile group_name
      ∧ (DumpGroup ifile group_name globals)._post_amble_output = globals._post_amble_output := by
  unfold DumpGroup groupNames IniLoadFile.GetGroup
  rw [IniLoadFile.GetGroup.find_first]
  cases ifile.groups.find? (fun grp => decide (grp.name = group_name)) with
  | none => simp
  | some grp =>
    by_cases ht : grp.type = IniGroupType.IGT_SEQUENCE
    · simp only [ht, if_true]
      exact ⟨DumpGroup.items_Write _ _, trivial⟩
    · simp [ht]


theorem DumpSections.loop_step (default_grp : Option IniGroup) (templates_grp : IniGroup)
    (validation_grp : Option IniGroup) (grp : IniGroup) (rest : List IniGroup) (globals : Globals)
    (h : grp.name ∉ special_group_names) (item : IniItem)
    (hitem : templates_grp.GetItem grp.name = some item) (hval : item.value.isSome = true) :
    ∃ globals₁ : Globals,
      DumpSections.loop default_grp templates_grp validation_grp (grp :: rest) globals
        = DumpSections.loop default_grp templates_grp validation_grp rest globals₁
      ∧ globals₁._stored_output.Write
          = globals._stored_output.Write ++ sectionLine templates_grp default_grp grp
      ∧ globals₁._post_amble_output.Write
          = globals._post_amble_output.Write ++ validationLine validation_grp default_grp grp := by
  have hc : special_group_names.contains grp.name = false := by simpa using h
  simp only [DumpSections.loop, hc, hitem, dif_pos hval]
  refine ⟨_, rfl, ?_, ?_⟩
  · rw [sectionLine_eq _ _ _ item hitem hval, ← DumpLine_Write_renderLine]
    cases validation_grp with
    | none => rfl
    | some validation_grp =>
      cases hv : validation_grp.GetItem grp.name with
      | none => simp only [hv]
      | some validation_item =>
        simp only [hv]
        split <;> rfl
  · cases validation_grp with
    | none => simp [validationLine]
    | some validation_grp =>
      cases hv : validation_grp.GetItem grp.name with
      | none => simp [validationLine, hv]
      | some validation_item =>
        by_cases hvv : validation_item.value.isSome = true
        · simp only [validationLine, hv, dif_pos hvv]
          exact DumpLine_Write_renderLine _ _ _ _ _
        · simp [validationLine, hv, hvv]

theorem DumpSections.loop_outputs (default_grp : Option IniGroup) (templates_grp : IniGroup)
    (validation_grp : Option IniGroup) (groups : List IniGroup) :
    ∀ globals globals' : Globals,
      DumpSections.loop default_grp templates_grp validation_grp groups globals
          = Except.ok globals' →
      globals'._stored_output.Write = globals._stored_output.Write
          ++ ((groups.filter (fun g => decide (g.name ∉ special_group_names))).map
                (sectionLine templates_grp default_grp)).flatten
      ∧ globals'._post_amble_output.Write = globals._post_amble_output.Write
          ++ ((groups.filter (fun g => decide (g.name ∉ special_group_names))).map
                (validationLine validation_grp default_grp)).flatten := by
  induction groups with
  | nil =>
    intro globals globals' hok
    simp only [DumpSections.loop] at hok
    cases hok
    simp
  | cons grp rest ih =>
    intro globals globals' hok
    by_cases h : grp.name ∈ special_group_names
    · rw [DumpSections.loop_special _ _ _ _ _ _ h] at hok
      rw [List.filter_cons_of_neg (by simpa using h)]
      exact ih globals globals' hok
    · by_cases hmiss :
          ((templates_grp.GetItem grp.name).bind (fun item => item.value)).isNone = true
      · rw [DumpSections.loop_missing _ _ _ _ _ _ h hmiss] at hok
        cases hok
      · obtain ⟨item, hitem, hval⟩ : ∃ item, templates_grp.GetItem grp.name = some item
            ∧ item.value.isSome = true := by
          cases hitem : templates_grp.GetItem grp.name with
          | none => rw [hitem] at hmiss; exact absurd rfl hmiss
          | some item =>
            rw [hitem] at hmiss
            refine ⟨item, rfl, ?_⟩
            cases hv : item.value <;> simp_all
        obtain ⟨globals₁, hstep, hs, hp⟩ :=
          DumpSections.loop_step default_grp templates_grp validation_grp grp rest globals h
            item hitem hval
        rw [hstep] at hok
        obtain ⟨h₁, h₂⟩ := ih globals₁ globals' hok
        rw [List.filter_cons_of_pos (by simpa using h), List.map_cons, List.flatten_cons,
          List.map_cons, List.flatten_cons, h₁, h₂, hs, hp]
        simp only [List.append_assoc, and_self]

theorem DumpSections_outputs (ifile : IniLoadFile) (globals globals' : Globals)
    (hok : DumpSections ifile globals = Except.ok globals') :
    globals'._stored_output.Write = globals._stored_output.Write ++ sectionsBody ifile
    ∧ globals'._post_amble_output.Write
        = globals._post_amble_output.Write ++ sectionsValidation ifile := by
  unfold DumpSections at hok
  unfold sectionsBody sectionsValidation
  cases ht : ifile.GetGroup TEMPLATES_GROUP_NAME with
  | none =>
    simp only [ht] at hok
    cases hok
    simp
  | some templates_grp =>
    simp only [ht] at hok
    exact DumpSections.loop_outputs _ _ _ _ _ _ hok


theorem OutputStore.Add.loop_nil (fuel : Nat) (output_buffer : List OutputBuffer) :
    OutputStore.Add.loop fuel output_buffer [] = output_buffer := by
  cases fuel <;> simp [OutputStore.Add.loop]

theorem OutputStore.Add.loop_invariant (fuel : Nat) :
    ∀ (output_buffer : List OutputBuffer) (text : Text), text.length ≤ fuel →
      (∀ b ∈ output_buffer, b.data.length = 16000) →
      (∀ b ∈ (OutputStore.Add.loop fuel output_buffer text).dropLast, b.data.length = 16000)
      ∧ (∀ b ∈ (OutputStore.Add.loop fuel output_buffer text).getLast?,
          1 ≤ b.data.length ∧ b.data.length ≤ 16000) := by
  induction fuel with
  | zero =>
    intro output_buffer text h hfull
    simp only [OutputStore.Add.loop]
    refine ⟨fun b hb => hfull b (List.mem_of_mem_dropLast hb), fun b hb => ?_⟩
    have := hfull b (List.mem_of_getLast?_eq_some hb)
    omega
  | succ fuel ih =>
    intro output_buffer text h hfull
    cases text with
    | nil =>
      rw [OutputStore.Add.loop_nil]
      refine ⟨fun b hb => hfull b (List.mem_of_mem_dropLast hb), fun b hb => ?_⟩
      have := hfull b (List.mem_of_getLast?_eq_some hb)
      omega
    | cons c cs =>
      simp only [OutputStore.Add.loop, OutputBuffer.Add, OutputBuffer.Clear, OutputBuffer.size,
        List.isEmpty_cons, Bool.false_eq_true, if_false, List.length_nil, Nat.sub_zero,
        List.length_cons, List.nil_append, OUTPUT_BLOCK_SIZE]
      by_cases hlen : cs.length + 1 ≤ 16000
      · have hmin : min (cs.length + 1) 16000 = cs.length + 1 := Nat.min_eq_left hlen
        have hdrop : List.drop (cs.length + 1) (c :: cs) = [] :=
          List.drop_eq_nil_of_le (by simp)
        have htake : List.take (cs.length + 1) (c :: cs) = c :: cs :=
          List.take_of_length_le (by simp)
        rw [hmin, hdrop, htake, OutputStore.Add.loop_nil, List.dropLast_concat,
          List.getLast?_concat]
        refine ⟨hfull, fun b hb => ?_⟩
        have hb' : b = { data := c :: cs } := by simpa using hb.symm
        subst hb'
        simp only [List.length_cons]
        omega
      · have hmin : min (cs.length + 1) 16000 = 16000 := Nat.min_eq_right (by omega)
        rw [hmin]
        apply ih
        · simp only [List.length_drop, List.length_cons]
          simp only [List.length_cons] at h
          omega
        · intro b hb
          rcases List.mem_append.mp hb with hb | hb
          · exact hfull b hb
          · have hb' : b = { data := List.take 16000 (c :: cs) } := by simpa using hb
            subst hb'
            simp only [List.length_take, List.length_cons]
            omega

theorem OutputStore.Add_invariant (self : OutputStore) (text : Text)
    (hinit : ∀ b ∈ self.output_buffer.dropLast, b.data.length = 16000)
    (hlast : ∀ b ∈ self.output_buffer.getLast?, 1 ≤ b.data.length ∧ b.data.length ≤ 16000) :
    (∀ b ∈ (self.Add text).output_buffer.dropLast, b.data.length = 16000)
    ∧ (∀ b ∈ (self.Add text).output_buffer.getLast?,
        1 ≤ b.data.length ∧ b.data.length ≤ 16000) := by
  unfold OutputStore.Add
  cases hl : self.output_buffer.getLast? with
  | none =>
    simp only [hl]
    have hnil : self.output_buffer = [] := List.getLast?_eq_none_iff.mp hl
    exact OutputStore.Add.loop_invariant _ _ _ (Nat.le_refl _) (by simp [hnil])
  | some last =>
    have hsplit : self.output_buffer.dropLast ++ [last] = self.output_buffer :=
      List.dropLast_append_getLast? last (by simp [hl])
    obtain ⟨hl1, hl2⟩ := hlast last (by simp [hl])
    have hroom : self.BufferHasRoom = decide (last.data.length < 16000) := by
      simp [OutputStore.BufferHasRoom, hl, OutputBuffer.HasRoom, OutputBuffer.size,
        OUTPUT_BLOCK_SIZE]
    simp only [hl, hroom]
    by_cases hcond : (!text.isEmpty && decide (last.data.length < 16000)) = true
    · simp only [hcond, if_true, OutputBuffer.Add, OutputBuffer.size, OUTPUT_BLOCK_SIZE]
      have hlt : last.data.length < 16000 := by simp at hcond; exact hcond.2
      have hne : text ≠ [] := by
        intro h; simp [h] at hcond
      have hpos : 1 ≤ text.length := by
        cases text with
        | nil => exact absurd rfl hne
        | cons a l => simp
      by_cases hfit : text.length ≤ 16000 - last.data.length
      · have hmin : min text.length (16000 - last.data.length) = text.length :=
          Nat.min_eq_left hfit
        rw [hmin, List.drop_eq_nil_of_le (Nat.le_refl _), List.take_of_length_le (Nat.le_refl _),
          List.length_nil, OutputStore.Add.loop_nil, List.dropLast_concat, List.getLast?_concat]
        refine ⟨hinit, fun b hb => ?_⟩
        have hb' : b = { data := last.data ++ text } := by simpa using hb.symm
        subst hb'
        simp only [List.length_append]
        omega
      · have hmin : min text.length (16000 - last.data.length) = 16000 - last.data.length :=
          Nat.min_eq_right (by omega)
        rw [hmin]
        apply OutputStore.Add.loop_invariant _ _ _ (Nat.le_refl _)
        intro b hb
        rcases List.mem_append.mp hb with hb | hb
        · exact hinit b hb
        · have hb' : b = { data := last.data ++ List.take (16000 - last.data.length) text } := by
            simpa using hb
          subst hb'
          simp only [List.length_append, List.length_take]
          omega
    · simp only [hcond, Bool.false_eq_true, if_false]
      by_cases hempty : text = []
      · subst hempty
        simp only [List.length_nil, OutputStore.Add.loop]
        exact ⟨hinit, fun b hb => hlast b (by simpa [hl] using hb)⟩
      · have hfull_last : last.data.length = 16000 := by
          have : text.isEmpty = false := by
            cases text with
            | nil => exact absurd rfl hempty
            | cons a l => rfl
          simp [this] at hcond
          omega
        apply OutputStore.Add.loop_invariant _ _ _ (Nat.le_refl _)
        intro b hb
        rw [← hsplit] at hb
        rcases List.mem_append.mp hb with hb | hb
        · exact hinit b hb
        · have hb' : b = last := by simpa using hb
          rw [hb']; exact hfull_last

theorem OutputStore.foldl_Add_invariant (texts : List Text) :
    ∀ store : OutputStore,
      (∀ b ∈ store.output_buffer.dropLast, b.data.length = 16000) →
      (∀ b ∈ store.output_buffer.getLast?, 1 ≤ b.data.length ∧ b.data.length ≤ 16000) →
      (∀ b ∈ (texts.foldl OutputStore.Add store).output_buffer.dropLast, b.data.length = 16000)
      ∧ (∀ b ∈ (texts.foldl OutputStore.Add store).output_buffer.getLast?,
          1 ≤ b.data.length ∧ b.data.length ≤ 16000) := by
  induction texts with
  | nil => intro store h₁ h₂; exact ⟨h₁, h₂⟩
  | cons t rest ih =>
    intro store h₁ h₂
    obtain ⟨h₁', h₂'⟩ := OutputStore.Add_invariant store t h₁ h₂
    exact ih (store.Add t) h₁' h₂'

theorem OutputStore.full_length (bufs : List OutputBuffer)
    (h : ∀ b ∈ bufs, b.data.length = 16000) :
    ((bufs.map OutputBuffer.Write).flatten).length = 16000 * bufs.length := by
  induction bufs with
  | nil => rfl
  | cons b rest ih =>
    have hb := h b (List.mem_cons_self _ _)
    have := ih (fun x hx => h x (List.mem_cons_of_mem _ hx))
    simp only [List.map_cons, List.flatten_cons, List.length_append, List.length_cons, this,
      OutputBuffer.Write, hb]
    omega

theorem OutputStore.chunk_count (store : OutputStore)
    (hinit : ∀ b ∈ store.output_buffer.dropLast, b.data.length = 16000)
    (hlast : ∀ b ∈ store.output_buffer.getLast?, 1 ≤ b.data.length ∧ b.data.length ≤ 16000) :
    store.output_buffer.length = (store.Write.length + 15999) / 16000 := by
  cases hl : store.output_buffer.getLast? with
  | none =>
    have hnil : store.output_buffer = [] := List.getLast?_eq_none_iff.mp hl
    simp [OutputStore.Write, hnil]
  | some last =>
    have hsplit : store.output_buffer.dropLast ++ [last] = store.output_buffer :=
      List.dropLast_append_getLast? last (by simp [hl])
    obtain ⟨hl1, hl2⟩ := hlast last (by simp [hl])
    have hfull := OutputStore.full_length _ hinit
    have hw : store.Write.length = 16000 * store.output_buffer.dropLast.length
        + last.data.length := by
      unfold OutputStore.Write
      rw [← hsplit, List.map_append, List.flatten_append, List.length_append, hfull]
      simp [OutputBuffer.Write, hsplit]
    have hn : store.output_buffer.length = store.output_buffer.dropLast.length + 1 := by
      conv_lhs => rw [← hsplit]
      simp
    rw [hn, hw]
    omega


theorem OutputStore.Write_foldl_Add (texts : List Text) :
    ∀ store : OutputStore,
      (texts.foldl OutputStore.Add store).Write = store.Write ++ texts.flatten := by
  induction texts with
  | nil => intro store; simp
  | cons t rest ih =>
    intro store
    rw [List.foldl_cons, ih, OutputStore.Write_Add, List.flatten_cons, List.append_assoc]

/-- C11: for every configuration without a group named `templates`, `DumpSections` succeeds
and leaves both output stores as they were, whatever other groups the configuration has. -/
theorem DumpSections_without_templates (ifile : IniLoadFile) (globals : Globals)
    (h : ∀ g ∈ ifile.groups, g.name ≠ "templates".toList) :
    DumpSections ifile globals = Except.ok globals := by
  have hnone : ifile.GetGroup TEMPLATES_GROUP_NAME = none := by
    unfold IniLoadFile.GetGroup
    rw [IniLoadFile.GetGroup.find_first, List.find?_eq_none]
    intro g hg
    simpa using h g hg
  simp only [DumpSections, hnone]

/-- Witness of C11: a configuration with a validation group and a data group, but without
templates, leaves the stores empty. -/
theorem DumpSections_without_templates_witness :
    (∀ g ∈ ([{ items := [{ name := "speed".toList, value := some "check $name".toList }],
               type := IniGroupType.IGT_VARIABLES, name := "validation".toList },
             { items := [{ name := "name".toList, value := some "MaxSpeed".toList }],
               type := IniGroupType.IGT_VARIABLES, name := "speed".toList }] : List IniGroup),
        g.name ≠ "templates".toList)
    ∧ DumpSections
        { groups := [
            { items := [{ name := "speed".toList, value := some "check $name".toList }],
              type := IniGroupType.IGT_VARIABLES, name := "validation".toList },
            { items := [{ name := "name".toList, value := some "MaxSpeed".toList }],
              type := IniGroupType.IGT_VARIABLES, name := "speed".toList }] }
        { _stored_output := { output_buffer := [] }, _post_amble_output := { output_buffer := [] } }
      = Except.ok
        { _stored_output := { output_buffer := [] },
          _post_amble_output := { output_buffer := [] } } :=
  ⟨by decide, DumpSections_without_templates _ _ (by decide)⟩

/-- Counterexample to C12 as stated: in a configuration without a `templates` group
`DumpSections` succeeds and writes nothing to the validation output, although the
validation group has an item with a value for the data group `speed`, so that the
concatenation of validation lines named by the claim is not empty. -/
theorem DumpSections_validation_counterexample :
    DumpSections
        { groups := [
            { items := [{ name := "speed".toList, value := some "check $name".toList }],
              type := IniGroupType.IGT_VARIABLES, name := "validation".toList },
            { items := [{ name := "name".toList, value := some "MaxSpeed".toList }],
              type := IniGroupType.IGT_VARIABLES, name := "speed".toList }] }
        { _stored_output := { output_buffer := [] }, _post_amble_output := { output_buffer := [] } }
      = Except.ok
        { _stored_output := { output_buffer := [] },
          _post_amble_output := { output_buffer := [] } }
    ∧ (OutputStore.mk []).Write
      ≠ List.flatten (List.map
          (validationLine
            (some { items := [{ name := "speed".toList, value := some "check $name".toList }],
                    type := IniGroupType.IGT_VARIABLES, name := "validation".toList })
            none)
          (List.filter
            (fun g => decide (g.name ∉ ["pre-amble".toList, "post-amble".toList,
              "defaults".toList, "templates".toList, "validation".toList]))
            [{ items := [{ name := "speed".toList, value := some "check $name".toList }],
               type := IniGroupType.IGT_VARIABLES, name := "validation".toList },
             { items := [{ name := "name".toList, value := some "MaxSpeed".toList }],
               type := IniGroupType.IGT_VARIABLES, name := "speed".toList }])) := by
  refine ⟨rfl, by decide⟩

/-- C12, amended: for every configuration that has a `templates` group and on which
`DumpSections` succeeds, the validation output grows by exactly the validation lines of the
groups with a non-reserved name, in configuration order. The validation line of a group
is what `DumpLine` renders from the item of the validation group named after the group; it
is empty when there is no validation group, no such item, or an item without a value. -/
theorem DumpSections_validation_output (ifile : IniLoadFile) (globals globals' : Globals)
    (ht : (ifile.GetGroup "templates".toList).isSome = true)
    (hok : DumpSections ifile globals = Except.ok globals') :
    globals'._post_amble_output.Write = globals._post_amble_output.Write
        ++ ((ifile.groups.filter (fun g =>
              decide (g.name ∉ ["pre-amble".toList, "post-amble".toList, "defaults".toList,
                "templates".toList, "validation".toList]))).map
              (validationLine (ifile.GetGroup "validation".toList)
                (ifile.GetGroup "defaults".toList))).flatten
    ∧ (∀ (default_grp : Option IniGroup) (g : IniGroup),
        validationLine none default_grp g = [])
    ∧ (∀ (validation_grp : IniGroup) (default_grp : Option IniGroup) (g : IniGroup),
        (validation_grp.GetItem g.name).bind (fun item => item.value) = none →
        validationLine (some validation_grp) default_grp g = [])
    ∧ (∀ (validation_grp : IniGroup) (default_grp : Option IniGroup) (g : IniGroup)
        (item : IniItem) (h : item.value.isSome = true),
        validation_grp.GetItem g.name = some item →
        validationLine (some validation_grp) default_grp g
          = (DumpLine item h g default_grp { output_buffer := [] }).Write) := by
  refine ⟨?_, fun _ _ => rfl, ?_, ?_⟩
  · have h := (DumpSections_outputs ifile globals globals' hok).2
    rw [h]
    unfold sectionsValidation
    cases hg : ifile.GetGroup TEMPLATES_GROUP_NAME with
    | none =>
      have ht' : (ifile.GetGroup TEMPLATES_GROUP_NAME).isSome = true := ht
      rw [hg] at ht'
      cases ht'
    | some templates_grp => rfl
  · intro validation_grp default_grp g hnone
    cases hitem : validation_grp.GetItem g.name with
    | none => simp [validationLine, hitem]
    | some item =>
      rw [hitem] at hnone
      have hv : ¬ (item.value.isSome = true) := by
        cases hval : item.value <;> simp_all
      simp [validationLine, hitem, hv]
  · intro validation_grp default_grp g item h hitem
    simp only [validationLine, hitem, dif_pos h, renderLine]

/-- Witness of C12: with a `templates` group, the data group `speed` gets its validation
line and the data group `other`, which has no validation item, gets none. -/
theorem DumpSections_validation_output_witness :
    ∃ globals' : Globals,
      DumpSections
          { groups := [
              { items := [{ name := "speed".toList, value := some "int $name;".toList },
                          { name := "other".toList, value := some "int other;".toList }],
                type := IniGroupType.IGT_VARIABLES, name := "templates".toList },
              { items := [{ name := "speed".toList, value := some "check $name".toList }],
                type := IniGroupType.IGT_VARIABLES, name := "validation".toList },
              { items := [{ name := "name".toList, value := some "MaxSpeed".toList }],
                type := IniGroupType.IGT_VARIABLES, name := "speed".toList },
              { items := [], type := IniGroupType.IGT_VARIABLES, name := "other".toList }] }
          { _stored_output := { output_buffer := [] },
            _post_amble_output := { output_buffer := [] } } = Except.ok globals'
      ∧ globals'._post_amble_output.Write = "check MaxSpeed\n".toList :=
  ⟨_, rfl, (DumpSections_validation_output
      { groups := [
          { items := [{ name := "speed".toList, value := some "int $name;".toList },
                      { name := "other".toList, value := some "int other;".toList }],
            type := IniGroupType.IGT_VARIABLES, name := "templates".toList },
          { items := [{ name := "speed".toList, value := some "check $name".toList }],
            type := IniGroupType.IGT_VARIABLES, name := "validation".toList },
          { items := [{ name := "name".toList, value := some "MaxSpeed".toList }],
            type := IniGroupType.IGT_VARIABLES, name := "speed".toList },
          { items := [], type := IniGroupType.IGT_VARIABLES, name := "other".toList }] }
      { _stored_output := { output_buffer := [] }, _post_amble_output := { output_buffer := [] } }
      _ (by decide) rfl).1.trans (by decide)⟩

/-- Counterexample to C13 as stated: with the template item named `speed` and the data
group named `max_speed`, `DumpSections` finds no template for the group and ends in a
fatal error; no body output is produced. -/
theorem DumpSections_example_counterexample :
    DumpSections
        { groups := [
            { items := [{ name := "speed".toList, value := some "int $name = $value;".toList }],
              type := IniGroupType.IGT_VARIABLES, name := "templates".toList },
            { items := [{ name := "name".toList, value := some "MaxSpeed".toList },
                        { name := "value".toList, value := some "255".toList }],
              type := IniGroupType.IGT_VARIABLES, name := "max_speed".toList }] }
        { _stored_output := { output_buffer := [] }, _post_amble_output := { output_buffer := [] } }
      = Except.error "Cannot find template max_speed".toList := rfl

/-- C13, amended: for the configuration whose `templates` group has the single item
`max_speed`, named after the data group, with the value `int $name = $value;` and whose
only data group `max_speed` has the items `name=MaxSpeed` and `value=255`, `DumpSections`
succeeds and appends exactly the line `int MaxSpeed = 255;` with a newline to the body
output, without guard lines, and nothing to the validation output. -/
theorem DumpSections_example (globals : Globals) :
    ∃ globals' : Globals,
      DumpSections
          { groups := [
              { items := [{ name := "max_speed".toList,
                            value := some "int $name = $value;".toList }],
                type := IniGroupType.IGT_VARIABLES, name := "templates".toList },
              { items := [{ name := "name".toList, value := some "MaxSpeed".toList },
                          { name := "value".toList, value := some "255".toList }],
                type := IniGroupType.IGT_VARIABLES, name := "max_speed".toList }] }
          globals = Except.ok globals'
      ∧ globals'._stored_output.Write
          = globals._stored_output.Write ++ "int MaxSpeed = 255;\n".toList
      ∧ globals'._post_amble_output.Write = globals._post_amble_output.Write := by
  obtain ⟨globals', hok, _⟩ := DumpSections.loop_stored none
    { items := [{ name := "max_speed".toList, value := some "int $name = $value;".toList }],
      type := IniGroupType.IGT_VARIABLES, name := "templates".toList } none
    [{ items := [{ name := "max_speed".toList, value := some "int $name = $value;".toList }],
       type := IniGroupType.IGT_VARIABLES, name := "templates".toList },
     { items := [{ name := "name".toList, value := some "MaxSpeed".toList },
                 { name := "value".toList, value := some "255".toList }],
       type := IniGroupType.IGT_VARIABLES, name := "max_speed".toList }]
    globals (by decide)
  have hok' : DumpSections
      { groups := [
          { items := [{ name := "max_speed".toList,
                        value := some "int $name = $value;".toList }],
            type := IniGroupType.IGT_VARIABLES, name := "templates".toList },
          { items := [{ name := "name".toList, value := some "MaxSpeed".toList },
                      { name := "value".toList, value := some "255".toList }],
            type := IniGroupType.IGT_VARIABLES, name := "max_speed".toList }] }
      globals = Except.ok globals' := hok
  obtain ⟨h₁, h₂⟩ := DumpSections_outputs _ _ _ hok'
  refine ⟨globals', hok', h₁.trans ?_, h₂.trans ?_⟩
  · congr 1
  · exact List.append_nil _

/-- C14: for every configuration and group name, `DumpGroup` appends to the body output
exactly the non-empty item names of the first group of that name, in item order and each
followed by a newline, when that group exists and is an `IGT_SEQUENCE` group; the names are
copied as they are and values are not emitted. When there is no such group or it has
another role, `DumpGroup` changes nothing. The validation output is never touched. -/
theorem DumpGroup_output (ifile : IniLoadFile) (group_name : Text) (globals : Globals) :
    (DumpGroup ifile group_name globals)._stored_output.Write
      = globals._stored_output.Write
        ++ (match ifile.groups.find? (fun grp => decide (grp.name = group_name)) with
            | some grp =>
              if grp.type = IniGroupType.IGT_SEQUENCE then
                ((grp.items.filter (fun item => decide (item.name ≠ []))).map
                  (fun item => item.name ++ "\n".toList)).flatten
              else []
            | none => [])
    ∧ (DumpGroup ifile group_name globals)._post_amble_output = globals._post_amble_output
    ∧ ((∀ grp, ifile.groups.find? (fun grp => decide (grp.name = group_name)) = some grp →
          grp.type ≠ IniGroupType.IGT_SEQUENCE) →
        DumpGroup ifile group_name globals = globals) := by
  refine ⟨(DumpGroup_Write ifile group_name globals).1,
    (DumpGroup_Write ifile group_name globals).2, ?_⟩
  intro h
  unfold DumpGroup IniLoadFile.GetGroup
  rw [IniLoadFile.GetGroup.find_first]
  cases hf : ifile.groups.find? (fun grp => decide (grp.name = group_name)) with
  | none => rfl
  | some grp => simp [h grp hf]

/-- Witness of C14: a name with a dollar sign is copied as it is, an unnamed item is
skipped, values are not copied; a `pre-amble` group that is no sequence group is ignored. -/
theorem DumpGroup_output_witness :
    (DumpGroup
        { groups := [
            { items := [{ name := "int $x;".toList, value := some "v".toList },
                        { name := [], value := some "w".toList },
                        { name := "end".toList, value := none }],
              type := IniGroupType.IGT_SEQUENCE, name := "pre-amble".toList }] }
        "pre-amble".toList
        { _stored_output := { output_buffer := [] },
          _post_amble_output := { output_buffer := [] } })._stored_output.Write
      = "int $x;\nend\n".toList
    ∧ DumpGroup
        { groups := [
            { items := [{ name := "int $x;".toList, value := some "v".toList }],
              type := IniGroupType.IGT_VARIABLES, name := "pre-amble".toList }] }
        "pre-amble".toList
        { _stored_output := { output_buffer := [] }, _post_amble_output := { output_buffer := [] } }
      = { _stored_output := { output_buffer := [] },
          _post_amble_output := { output_buffer := [] } } :=
  ⟨(DumpGroup_output _ _ _).1.trans (by decide),
    (DumpGroup_output _ _ _).2.2 (by decide)⟩

/-- C15: for every sequence of texts added with `OutputStore::Add` to a cleared store, the
bytes `OutputStore::Write` sends to the stream are exactly the texts one after the other;
more generally each `Add` extends the bytes sent by exactly the text added. -/
theorem OutputStore_Write_Add_sequence (store : OutputStore) (texts : List Text) :
    (texts.foldl OutputStore.Add store.Clear).Write = texts.flatten
    ∧ ∀ text : Text, (store.Add text).Write = store.Write ++ text := by
  refine ⟨?_, fun text => OutputStore.Write_Add store text⟩
  rw [OutputStore.Write_foldl_Add]
  simp [OutputStore.Clear, OutputStore.Write]


theorem OutputStore.Add_nil (self : OutputStore) : self.Add [] = self := by
  unfold OutputStore.Add
  cases hl : self.output_buffer.getLast? <;> simp [OutputStore.Add.loop]

theorem CompareFiles.block_differs (b1 b2 : Text) :
    (decide (b1.length ≠ b2.length) || decide (b1.take b1.length ≠ b2.take b1.length)) = true
      ↔ b1 ≠ b2 := by
  constructor
  · intro h he
    subst he
    simp at h
  · intro hne
    by_cases hlen : b1.length = b2.length
    · have h2 : b2.take b1.length = b2 := by rw [hlen]; exact List.take_length _
      simp [List.take_length, h2, hne]
    · simp [hlen]

theorem CompareFiles.loop_succ (fuel : Nat) (f1 f2 : Text) :
    CompareFiles.loop (fuel + 1) f1 f2 =
      if List.take 4096 f1 ≠ List.take 4096 f2 then false
      else if (List.take 4096 f1).length ≠ 0 then
        CompareFiles.loop fuel (List.drop 4096 f1) (List.drop 4096 f2)
      else true := by
  simp only [CompareFiles.loop]
  by_cases h : List.take 4096 f1 ≠ List.take 4096 f2
  · rw [if_pos ((CompareFiles.block_differs _ _).mpr h), if_pos h]
  · have hc : ¬ ((decide ((List.take 4096 f1).length ≠ (List.take 4096 f2).length)
        || decide (List.take (List.take 4096 f1).length (List.take 4096 f1)
            ≠ List.take (List.take 4096 f1).length (List.take 4096 f2))) = true) :=
      fun hc => h ((CompareFiles.block_differs _ _).mp hc)
    rw [if_neg hc, if_neg h]

theorem CompareFiles.loop_eq (fuel : Nat) :
    ∀ f1 f2 : Text, f1.length < fuel → CompareFiles.loop fuel f1 f2 = decide (f1 = f2) := by
  induction fuel with
  | zero => intro f1 f2 h; omega
  | succ fuel ih =>
    intro f1 f2 h
    rw [CompareFiles.loop_succ]
    by_cases hbytes : List.take 4096 f1 = List.take 4096 f2
    · rw [if_neg (not_not.mpr hbytes)]
      by_cases hzero : (List.take 4096 f1).length = 0
      · have h1 : f1 = [] := by
          cases f1 with
          | nil => rfl
          | cons a l => simp at hzero
        have h2 : f2 = [] := by
          rw [hbytes] at hzero
          cases f2 with
          | nil => rfl
          | cons a l => simp at hzero
        simp [hzero, h1, h2]
      · have hdrop : (List.drop 4096 f1).length < fuel := by
          have hpos : 1 ≤ f1.length := by
            cases f1 with
            | nil => simp at hzero
            | cons a l => simp
          simp only [List.length_drop]
          omega
        rw [if_pos hzero, ih _ _ hdrop]
        have hiff : List.drop 4096 f1 = List.drop 4096 f2 ↔ f1 = f2 := by
          constructor
          · intro hd
            rw [← List.take_append_drop 4096 f1, ← List.take_append_drop 4096 f2, hbytes, hd]
          · intro he; rw [he]
        simp only [hiff]
    · have hne : f1 ≠ f2 := fun he => hbytes (by rw [he])
      rw [if_pos hbytes]
      simp [hne]

theorem CompareFiles_eq (n1 n2 : Text) (w : World) (f1 f2 : Text)
    (h1 : w.files n1 = some f1) (h2 : w.files n2 = some f2) :
    CompareFiles n1 n2 w = Except.ok (decide (f1 = f2)) := by
  simp only [CompareFiles, h1, h2]
  rw [CompareFiles.loop_eq _ _ _ (Nat.lt_succ_self _)]

/-- C18: in every store reached from a cleared store by a sequence of `Add` calls, every
block holds at most 16000 bytes and at least one, every block but the last holds exactly
16000 bytes, and the number of blocks is the total number of bytes added divided by 16000,
rounded up. Adding the empty text changes nothing. -/
theorem OutputStore_block_invariant (store : OutputStore) (texts : List Text) :
    (∀ b ∈ (texts.foldl OutputStore.Add store.Clear).output_buffer,
        b.size ≤ 16000 ∧ b.size ≠ 0)
    ∧ (∀ b ∈ (texts.foldl OutputStore.Add store.Clear).output_buffer.dropLast,
        b.size = 16000)
    ∧ (texts.foldl OutputStore.Add store.Clear).output_buffer.length
        = (texts.flatten.length + 15999) / 16000
    ∧ (∀ s : OutputStore, s.Add [] = s) := by
  obtain ⟨hinit, hlast⟩ := OutputStore.foldl_Add_invariant texts store.Clear
    (by simp [OutputStore.Clear]) (by simp [OutputStore.Clear])
  refine ⟨?_, hinit, ?_, OutputStore.Add_nil⟩
  · intro b hb
    cases hl : (texts.foldl OutputStore.Add store.Clear).output_buffer.getLast? with
    | none =>
      rw [List.getLast?_eq_none_iff.mp hl] at hb
      simp at hb
    | some last =>
      have hsplit := List.dropLast_append_getLast? last (by simp [hl] :
        last ∈ (texts.foldl OutputStore.Add store.Clear).output_buffer.getLast?)
      rw [← hsplit] at hb
      rcases List.mem_append.mp hb with hb | hb
      · have := hinit b hb
        simp only [OutputBuffer.size]
        omega
      · have hb' : b = last := by simpa using hb
        have := hlast last (by simp [hl])
        subst hb'
        simp only [OutputBuffer.size]
        omega
  · rw [OutputStore.chunk_count _ hinit hlast, OutputStore.Write_foldl_Add]
    simp [OutputStore.Clear, OutputStore.Write]

/-- C19: `CompareFiles` answers `true` exactly when both files can be opened and hold the
same bytes, answers `false` when the second file does not exist, and for two files that
can be opened its answer is whether their contents are equal; the loop over blocks of 4096
bytes agrees with equality of the whole contents for every pair of contents. -/
theorem CompareFiles_spec (n1 n2 : Text) (w : World) :
    (CompareFiles n1 n2 w = Except.ok true
        ↔ ∃ f1 f2, w.files n1 = some f1 ∧ w.files n2 = some f2 ∧ f1 = f2)
    ∧ (w.files n2 = none → CompareFiles n1 n2 w = Except.ok false)
    ∧ (∀ f1 f2 : Text, w.files n1 = some f1 → w.files n2 = some f2 →
        CompareFiles n1 n2 w = Except.ok (decide (f1 = f2)))
    ∧ (∀ f1 f2 : Text, CompareFiles.loop (f1.length + 1) f1 f2 = decide (f1 = f2)) := by
  refine ⟨?_, ?_, fun f1 f2 h1 h2 => CompareFiles_eq n1 n2 w f1 f2 h1 h2,
    fun f1 f2 => CompareFiles.loop_eq _ f1 f2 (Nat.lt_succ_self _)⟩
  · constructor
    · intro h
      cases h2 : w.files n2 with
      | none => simp [CompareFiles, h2] at h
      | some f2 =>
        cases h1 : w.files n1 with
        | none => simp [CompareFiles, h1, h2, FatalError] at h
        | some f1 =>
          rw [CompareFiles_eq n1 n2 w f1 f2 h1 h2] at h
          refine ⟨f1, f2, rfl, rfl, ?_⟩
          have : decide (f1 = f2) = true := by
            injection h
          simpa using this
    · rintro ⟨f1, f2, h1, h2, he⟩
      rw [CompareFiles_eq n1 n2 w f1 f2 h1 h2]
      simp [he]
  · intro h2
    simp [CompareFiles, h2]

/-- Witness of C19: a file that is a strict prefix of the other compares as different, two
empty files compare as equal, and a missing second file gives `false`. -/
theorem CompareFiles_spec_witness :
    CompareFiles "a".toList "b".toList
        { files := fun n => if n = "a".toList then some "ab".toList
                            else if n = "b".toList then some "abc".toList else none,
          stdout := [], stderr := [] }
      = Except.ok false
    ∧ CompareFiles "a".toList "b".toList
        { files := fun _ => some [], stdout := [], stderr := [] } = Except.ok true
    ∧ CompareFiles "a".toList "b".toList
        { files := fun _ => none, stdout := [], stderr := [] } = Except.ok false :=
  ⟨(CompareFiles_spec "a".toList "b".toList _).2.2.1 "ab".toList "abc".toList
      (by decide) (by decide),
    (CompareFiles_spec "a".toList "b".toList _).1.mpr ⟨[], [], rfl, rfl, rfl⟩,
    (CompareFiles_spec "a".toList "b".toList _).2.1 rfl⟩


/-! ## Streams, `AppendFile` and the processing loop of `main` -/

theorem fwrite_fwrite (w : World) (out_fp : Stream) (x y : Text) :
    fwrite (fwrite w out_fp x) out_fp y = fwrite w out_fp (x ++ y) := by
  cases out_fp with
  | stdout => simp [fwrite, List.append_assoc]
  | file name =>
    simp only [fwrite, World.mk.injEq, and_true]
    funext n
    by_cases hn : n = name <;> simp [hn, List.append_assoc]

theorem AppendFile.loop_copies (out_fp : Stream) (fuel : Nat) :
    ∀ (in_fp : Text) (w : World), in_fp.length < fuel →
      AppendFile.loop out_fp fuel in_fp w = fwrite w out_fp in_fp := by
  induction fuel with
  | zero => intro in_fp w h; omega
  | succ fuel ih =>
    intro in_fp w h
    simp only [AppendFile.loop]
    by_cases hfull : (List.take 4096 in_fp).length = 4096
    · have hlen : 4096 ≤ in_fp.length := by
        simp only [List.length_take] at hfull
        omega
      have hdrop : (List.drop 4096 in_fp).length < fuel := by
        simp only [List.length_drop]
        omega
      rw [if_pos hfull, ih _ _ hdrop, fwrite_fwrite, List.take_append_drop]
    · have hlen : in_fp.length < 4096 := by
        simp only [List.length_take] at hfull
        omega
      rw [if_neg hfull, List.take_of_length_le (Nat.le_of_lt hlen)]

theorem AppendFile_stdout (fname : Option Text) (w : World) (content : Text)
    (h : optionalFile w fname = some content) :
    AppendFile fname Stream.stdout w = Except.ok (fwrite w Stream.stdout content) := by
  cases fname with
  | none =>
    simp only [optionalFile, Option.some.injEq] at h
    subst h
    simp [AppendFile, fwrite]
  | some fname =>
    simp only [optionalFile] at h
    simp only [AppendFile, h]
    rw [AppendFile.loop_copies _ _ _ _ (Nat.lt_succ_self _)]

theorem main.write_stdout (before_file after_file : Option Text) (globals : Globals) (w : World)
    (b a : Text) (hb : optionalFile w before_file = some b)
    (ha : optionalFile w after_file = some a) :
    main.write before_file after_file globals Stream.stdout w
      = ({ files := w.files,
           stdout := w.stdout ++ b ++ globals._stored_output.Write
             ++ globals._post_amble_output.Write ++ a,
           stderr := w.stderr }, none) := by
  have ha' : optionalFile
      (fwrite (fwrite (fwrite w Stream.stdout b) Stream.stdout globals._stored_output.Write)
        Stream.stdout globals._post_amble_output.Write) after_file = some a := by
    cases after_file <;> exact ha
  simp only [main.write, AppendFile_stdout before_file w b hb, AppendFile_stdout _ _ a ha']
  simp [fwrite, List.append_assoc]

theorem ProcessIniFile_outputs (LoadFromDisk : Text → Except Text IniLoadFile) (fname : Text)
    (ini : IniLoadFile) (globals globals' : Globals)
    (hload : LoadFromDisk fname = Except.ok ini)
    (hok : ProcessIniFile LoadFromDisk fname globals = Except.ok globals') :
    globals'._stored_output.Write = globals._stored_output.Write
        ++ (groupNames ini PREAMBLE_GROUP_NAME ++ sectionsBody ini
            ++ groupNames ini POSTAMBLE_GROUP_NAME)
    ∧ globals'._post_amble_output.Write
        = globals._post_amble_output.Write ++ sectionsValidation ini
    ∧ ∃ g₁ g₂ : Globals, DumpSections ini g₁ = Except.ok g₂ := by
  simp only [ProcessIniFile, hload] at hok
  cases hd : DumpSections ini (DumpGroup ini PREAMBLE_GROUP_NAME globals) with
  | error msg => rw [hd] at hok; cases hok
  | ok g₂ =>
    rw [hd] at hok
    simp only [Except.ok.injEq] at hok
    subst hok
    obtain ⟨hs, hp⟩ := DumpSections_outputs _ _ _ hd
    obtain ⟨hpre, hpre'⟩ := DumpGroup_Write ini PREAMBLE_GROUP_NAME globals
    obtain ⟨hpost, hpost'⟩ := DumpGroup_Write ini POSTAMBLE_GROUP_NAME g₂
    refine ⟨?_, ?_, _, _, hd⟩
    · rw [hpost, hs, hpre]
      simp only [List.append_assoc]
    · rw [hpost', hp, hpre']

theorem main.process_outputs (LoadFromDisk : Text → Except Text IniLoadFile)
    (arguments : List Text) :
    ∀ (inis : List IniLoadFile) (globals globals' : Globals),
      arguments.map LoadFromDisk = inis.map Except.ok →
      main.process LoadFromDisk arguments globals = Except.ok globals' →
      globals'._stored_output.Write = globals._stored_output.Write
          ++ (inis.map (fun ini => groupNames ini PREAMBLE_GROUP_NAME ++ sectionsBody ini
                ++ groupNames ini POSTAMBLE_GROUP_NAME)).flatten
      ∧ globals'._post_amble_output.Write = globals._post_amble_output.Write
          ++ (inis.map sectionsValidation).flatten
      ∧ ∀ ini ∈ inis, ∃ g₁ g₂ : Globals, DumpSections ini g₁ = Except.ok g₂ := by
  induction arguments with
  | nil =>
    intro inis globals globals' hload hok
    cases inis with
    | nil =>
      simp only [main.process, Except.ok.injEq] at hok
      subst hok
      simp
    | cons ini rest => simp at hload
  | cons argument rest ih =>
    intro inis globals globals' hload hok
    cases inis with
    | nil => simp at hload
    | cons ini inis =>
      simp only [List.map_cons, List.cons.injEq] at hload
      obtain ⟨hl, hrest⟩ := hload
      simp only [main.process] at hok
      cases hp : ProcessIniFile LoadFromDisk argument globals with
      | error msg => rw [hp] at hok; cases hok
      | ok g₁ =>
        rw [hp] at hok
        obtain ⟨h₁, h₂, h₃⟩ := ProcessIniFile_outputs LoadFromDisk argument ini globals g₁ hl hp
        obtain ⟨h₁', h₂', h₃'⟩ := ih inis g₁ globals' hrest hok
        refine ⟨?_, ?_, ?_⟩
        · rw [h₁', h₁, List.map_cons, List.flatten_cons]
          simp only [List.append_assoc]
        · rw [h₂', h₂, List.map_cons, List.flatten_cons]
          simp only [List.append_assoc]
        · intro c hc
          rcases List.mem_cons.mp hc with hc | hc
          · subst hc; exact h₃
          · exact h₃' c hc

theorem DumpSections.loop_ok_of_ok (default_grp : Option IniGroup) (templates_grp : IniGroup)
    (validation_grp : Option IniGroup) (groups : List IniGroup) :
    ∀ g₁ g₂ g : Globals,
      DumpSections.loop default_grp templates_grp validation_grp groups g₁ = Except.ok g₂ →
      ∃ g' : Globals,
        DumpSections.loop default_grp templates_grp validation_grp groups g = Except.ok g' := by
  induction groups with
  | nil => intro g₁ g₂ g _; exact ⟨g, rfl⟩
  | cons grp rest ih =>
    intro g₁ g₂ g hok
    by_cases h : grp.name ∈ special_group_names
    · rw [DumpSections.loop_special _ _ _ _ _ _ h] at hok ⊢
      exact ih g₁ g₂ g hok
    · by_cases hmiss :
          ((templates_grp.GetItem grp.name).bind (fun item => item.value)).isNone = true
      · rw [DumpSections.loop_missing _ _ _ _ _ _ h hmiss] at hok
        cases hok
      · obtain ⟨item, hitem, hval⟩ : ∃ item, templates_grp.GetItem grp.name = some item
            ∧ item.value.isSome = true := by
          cases hitem : templates_grp.GetItem grp.name with
          | none => rw [hitem] at hmiss; exact absurd rfl hmiss
          | some item =>
            rw [hitem] at hmiss
            refine ⟨item, rfl, ?_⟩
            cases hv : item.value <;> simp_all
        obtain ⟨ga, hstepa, _⟩ :=
          DumpSections.loop_step default_grp templates_grp validation_grp grp rest g₁ h
            item hitem hval
        obtain ⟨gb, hstepb, _⟩ :=
          DumpSections.loop_step default_grp templates_grp validation_grp grp rest g h
            item hitem hval
        rw [hstepa] at hok
        rw [hstepb]
        exact ih ga g₂ gb hok

theorem DumpSections_ok_of_ok (ifile : IniLoadFile) (g₁ g₂ g : Globals)
    (hok : DumpSections ifile g₁ = Except.ok g₂) :
    ∃ g' : Globals, DumpSections ifile g = Except.ok g' := by
  unfold DumpSections at hok ⊢
  cases ht : ifile.GetGroup TEMPLATES_GROUP_NAME with
  | none => exact ⟨g, rfl⟩
  | some templates_grp =>
    simp only [ht] at hok ⊢
    exact DumpSections.loop_ok_of_ok _ _ _ _ g₁ g₂ g hok


theorem fwrite_file_nil (w : World) (name cur : Text) (h : w.files name = some cur) :
    fwrite w (Stream.file name) [] = w := by
  cases w with
  | mk files stdout stderr =>
    simp only [fwrite, World.mk.injEq, and_true]
    funext n
    by_cases hn : n = name
    · subst hn
      simp only at h
      simp [h]
    · simp [hn]

theorem optionalFile_fwrite_file (w : World) (name bytes : Text) (fname : Option Text)
    (hne : fname ≠ some name) :
    optionalFile (fwrite w (Stream.file name) bytes) fname = optionalFile w fname := by
  cases fname with
  | none => rfl
  | some f =>
    have hf : f ≠ name := fun h => hne (by rw [h])
    simp [optionalFile, fwrite, hf]

theorem AppendFile_file (fname : Option Text) (name : Text) (w : World) (content cur : Text)
    (hcur : w.files name = some cur) (h : optionalFile w fname = some content) :
    AppendFile fname (Stream.file name) w = Except.ok (fwrite w (Stream.file name) content) := by
  cases fname with
  | none =>
    simp only [optionalFile, Option.some.injEq] at h
    subst h
    rw [fwrite_file_nil w name cur hcur]
    rfl
  | some fname =>
    simp only [optionalFile] at h
    simp only [AppendFile, h]
    rw [AppendFile.loop_copies _ _ _ _ (Nat.lt_succ_self _)]

theorem main.write_file (before_file after_file : Option Text) (globals : Globals) (w : World)
    (name b a cur : Text) (hcur : w.files name = some cur)
    (hb : optionalFile w before_file = some b) (ha : optionalFile w after_file = some a)
    (hat : after_file ≠ some name) :
    main.write before_file after_file globals (Stream.file name) w
      = (fwrite w (Stream.file name)
          (b ++ globals._stored_output.Write ++ globals._post_amble_output.Write ++ a), none) := by
  have h3 : fwrite (fwrite (fwrite w (Stream.file name) b) (Stream.file name)
      globals._stored_output.Write) (Stream.file name) globals._post_amble_output.Write
      = fwrite w (Stream.file name)
          (b ++ globals._stored_output.Write ++ globals._post_amble_output.Write) := by
    rw [fwrite_fwrite, fwrite_fwrite, List.append_assoc]
  have hcur' : (fwrite w (Stream.file name)
      (b ++ globals._stored_output.Write ++ globals._post_amble_output.Write)).files name
      = some (cur ++ (b ++ globals._stored_output.Write ++ globals._post_amble_output.Write)) := by
    simp [fwrite, hcur]
  have ha' : optionalFile (fwrite w (Stream.file name)
      (b ++ globals._stored_output.Write ++ globals._post_amble_output.Write)) after_file
      = some a := by
    rw [optionalFile_fwrite_file _ _ _ _ hat]; exact ha
  simp only [main.write, AppendFile_file before_file name w b cur hcur hb, h3,
    AppendFile_file after_file name _ a _ hcur' ha', fwrite_fwrite]

theorem main_of_compare (LoadFromDisk : Text → Except Text IniLoadFile)
    (output_file : Text) (before_file after_file : Option Text) (arguments : List Text)
    (globals : Globals) (w w₂ : World) (same : Bool)
    (hproc : main.process LoadFromDisk arguments
        { _stored_output := { output_buffer := [] },
          _post_amble_output := { output_buffer := [] } } = Except.ok globals)
    (hwrite : main.write before_file after_file globals (Stream.file tmp_output)
        { w with files := fun n => if n = tmp_output then some [] else w.files n } = (w₂, none))
    (hcmp : CompareFiles tmp_output output_file w₂ = Except.ok same) :
    main LoadFromDisk (some output_file) before_file after_file arguments w
      = if same = true then (remove tmp_output w₂, 0)
        else (rename tmp_output output_file w₂, 0) := by
  cases same <;> simp only [main, OutputStore.Clear, hproc, hwrite, hcmp] <;> rfl

/-- The run of `main` with an output file other than the temporary file, and with before
and after files other than the temporary file: the temporary file is gone afterwards, the
output file holds the generated text, every other file is as it was; when the output file
already held the generated text the run only removes the temporary file. -/
theorem main_output_file (LoadFromDisk : Text → Except Text IniLoadFile)
    (output_file : Text) (before_file after_file : Option Text) (arguments : List Text)
    (globals : Globals) (b a : Text) (w : World)
    (hout : output_file ≠ tmp_output)
    (hbt : before_file ≠ some tmp_output) (hat : after_file ≠ some tmp_output)
    (hproc : main.process LoadFromDisk arguments
        { _stored_output := { output_buffer := [] },
          _post_amble_output := { output_buffer := [] } } = Except.ok globals)
    (hb : optionalFile w before_file = some b) (ha : optionalFile w after_file = some a) :
    main LoadFromDisk (some output_file) before_file after_file arguments w
      = ({ files := fun n =>
             if n = output_file then
               some (b ++ globals._stored_output.Write ++ globals._post_amble_output.Write ++ a)
             else if n = tmp_output then none else w.files n,
           stdout := w.stdout, stderr := w.stderr }, 0)
    ∧ (w.files output_file
          = some (b ++ globals._stored_output.Write ++ globals._post_amble_output.Write ++ a) →
        main LoadFromDisk (some output_file) before_file after_file arguments w
          = (remove tmp_output
              (fwrite { w with files := fun n => if n = tmp_output then some [] else w.files n }
                (Stream.file tmp_output)
                (b ++ globals._stored_output.Write ++ globals._post_amble_output.Write ++ a)),
             0)) := by
  have hw₁ : optionalFile { w with files := fun n => if n = tmp_output then some [] else w.files n }
      before_file = some b := by
    cases before_file with
    | none => exact hb
    | some f =>
      have hf : f ≠ tmp_output := fun h => hbt (by rw [h])
      simpa [optionalFile, hf] using hb
  have hw₂ : optionalFile { w with files := fun n => if n = tmp_output then some [] else w.files n }
      after_file = some a := by
    cases after_file with
    | none => exact ha
    | some f =>
      have hf : f ≠ tmp_output := fun h => hat (by rw [h])
      simpa [optionalFile, hf] using ha
  have hwrite := main.write_file before_file after_file globals
    { w with files := fun n => if n = tmp_output then some [] else w.files n }
    tmp_output b a [] (by simp) hw₁ hw₂ hat
  generalize b ++ globals._stored_output.Write ++ globals._post_amble_output.Write ++ a = T
    at hwrite ⊢
  have htmp : (fwrite { w with files := fun n => if n = tmp_output then some [] else w.files n }
      (Stream.file tmp_output) T).files tmp_output = some T := by
    simp [fwrite]
  have hdest : (fwrite { w with files := fun n => if n = tmp_output then some [] else w.files n }
      (Stream.file tmp_output) T).files output_file = w.files output_file := by
    simp [fwrite, hout]
  have hrename : rename tmp_output output_file
      (fwrite { w with files := fun n => if n = tmp_output then some [] else w.files n }
        (Stream.file tmp_output) T)
      = { files := fun n => if n = output_file then some T
                            else if n = tmp_output then none else w.files n,
          stdout := w.stdout, stderr := w.stderr } := by
    simp only [rename, if_neg (Ne.symm hout), fwrite, World.mk.injEq, and_true]
    funext n
    by_cases h₁ : n = output_file
    · simp [h₁]
    · by_cases h₂ : n = tmp_output <;> simp [h₁, h₂]
  cases hd : w.files output_file with
  | none =>
    have hcmp : CompareFiles tmp_output output_file
        (fwrite { w with files := fun n => if n = tmp_output then some [] else w.files n }
          (Stream.file tmp_output) T) = Except.ok false := by
      simp only [CompareFiles, hdest.trans hd]
    refine ⟨?_, fun h => by cases h⟩
    rw [main_of_compare LoadFromDisk output_file before_file after_file arguments globals w _
      false hproc hwrite hcmp, ← hrename]
    rfl
  | some old =>
    have hcmp := CompareFiles_eq tmp_output output_file _ _ _ htmp (hdest.trans hd)
    have hmain := main_of_compare LoadFromDisk output_file before_file after_file arguments
      globals w _ _ hproc hwrite hcmp
    by_cases hsame : T = old
    · subst hsame
      have hremove : main LoadFromDisk (some output_file) before_file after_file arguments w
          = (remove tmp_output
              (fwrite { w with files := fun n => if n = tmp_output then some [] else w.files n }
                (Stream.file tmp_output) T), 0) := by
        rw [hmain]; simp
      refine ⟨?_, fun _ => hremove⟩
      rw [hremove]
      simp only [remove, fwrite, Prod.mk.injEq, World.mk.injEq, and_true]
      funext n
      by_cases h₁ : n = output_file
      · subst h₁
        simp [hout, hd]
      · by_cases h₂ : n = tmp_output
        · subst h₂
          simp [Ne.symm hout]
        · simp [h₁, h₂]
    · refine ⟨?_, fun h => absurd (Option.some.inj h).symm hsame⟩
      rw [hmain, ← hrename]
      simp [hsame]


/-- C16, evaluated at the failing input: the output path is `tmp2.xxx`, the name of the
temporary file of `main`, and that file already holds exactly the generated text, the
line `int MaxSpeed = 255;`. The run ends with exit status 0 and the destination no longer
exists: the run truncated it, wrote it again, compared it with itself and removed it. -/
theorem main_output_tmp_destination_removed :
    (main (fun _ => Except.ok exampleSettings) none none none ["a.ini".toList]
        { files := fun n => if n = "tmp2.xxx".toList then some "int MaxSpeed = 255;\n".toList
                            else none,
          stdout := [], stderr := [] }).1.stdout = "int MaxSpeed = 255;\n".toList
    ∧ (main (fun _ => Except.ok exampleSettings) (some "tmp2.xxx".toList) none none
        ["a.ini".toList]
        { files := fun n => if n = "tmp2.xxx".toList then some "int MaxSpeed = 255;\n".toList
                            else none,
          stdout := [], stderr := [] }).2 = 0
    ∧ (main (fun _ => Except.ok exampleSettings) (some "tmp2.xxx".toList) none none
        ["a.ini".toList]
        { files := fun n => if n = "tmp2.xxx".toList then some "int MaxSpeed = 255;\n".toList
                            else none,
          stdout := [], stderr := [] }).1.files "tmp2.xxx".toList = none := by
  refine ⟨by decide, by decide, by decide⟩

/-- C17, evaluated at the failing input: the output path is `tmp2.xxx` and no such file
exists before the run. The run ends with exit status 0, the generated text is the line
`int MaxSpeed = 255;`, and afterwards there is no destination file at all; with the output
path `out.h` the same run leaves the generated text in the destination. -/
theorem main_output_tmp_no_destination :
    (main (fun _ => Except.ok exampleSettings) (some "tmp2.xxx".toList) none none
        ["a.ini".toList] { files := fun _ => none, stdout := [], stderr := [] }).2 = 0
    ∧ (main (fun _ => Except.ok exampleSettings) (some "tmp2.xxx".toList) none none
        ["a.ini".toList] { files := fun _ => none, stdout := [], stderr := [] }).1.files
          "tmp2.xxx".toList = none
    ∧ (main (fun _ => Except.ok exampleSettings) (some "out.h".toList) none none
        ["a.ini".toList] { files := fun _ => none, stdout := [], stderr := [] }).1.files
          "out.h".toList = some "int MaxSpeed = 255;\n".toList := by
  refine ⟨by decide, by decide, by decide⟩

/-- C20: for a run without output path over the arguments `arguments`, which load as the
configurations `inis` and are processed without fatal error, the text written to the
standard output is the before-file, then for each configuration in order its pre-amble
names, its section body and its post-amble names, then for each configuration in order its
validation output, then the after-file. The section body and the validation output of a
configuration are what `DumpSections` appends for it, and the names are what `DumpGroup`
appends. -/
theorem main_stdout_order (LoadFromDisk : Text → Except Text IniLoadFile)
    (before_file after_file : Option Text) (arguments : List Text) (inis : List IniLoadFile)
    (globals : Globals) (b a : Text) (w : World)
    (hload : arguments.map LoadFromDisk = inis.map Except.ok)
    (hproc : main.process LoadFromDisk arguments
        { _stored_output := { output_buffer := [] },
          _post_amble_output := { output_buffer := [] } } = Except.ok globals)
    (hb : optionalFile w before_file = some b) (ha : optionalFile w after_file = some a) :
    main LoadFromDisk none before_file after_file arguments w
      = ({ files := w.files,
           stdout := w.stdout ++ b
             ++ (inis.map (fun ini => groupNames ini "pre-amble".toList ++ sectionsBody ini
                   ++ groupNames ini "post-amble".toList)).flatten
             ++ (inis.map sectionsValidation).flatten
             ++ a,
           stderr := w.stderr }, 0)
    ∧ (∀ ini ∈ inis, ∀ g : Globals, ∃ g' : Globals, DumpSections ini g = Except.ok g'
        ∧ g'._stored_output.Write = g._stored_output.Write ++ sectionsBody ini
        ∧ g'._post_amble_output.Write = g._post_amble_output.Write ++ sectionsValidation ini)
    ∧ (∀ (ini : IniLoadFile) (group_name : Text) (g : Globals),
        (DumpGroup ini group_name g)._stored_output.Write
          = g._stored_output.Write ++ groupNames ini group_name) := by
  obtain ⟨h₁, h₂, h₃⟩ := main.process_outputs LoadFromDisk arguments inis _ globals hload hproc
  refine ⟨?_, ?_, fun ini group_name g => (DumpGroup_Write ini group_name g).1⟩
  · have hs : globals._stored_output.Write
        = (inis.map (fun ini => groupNames ini "pre-amble".toList ++ sectionsBody ini
            ++ groupNames ini "post-amble".toList)).flatten := by
      rw [h₁]; rfl
    have hp : globals._post_amble_output.Write = (inis.map sectionsValidation).flatten := by
      rw [h₂]; rfl
    simp only [main, OutputStore.Clear, hproc,
      main.write_stdout before_file after_file globals w b a hb ha, hs, hp]
  · intro ini hini g
    obtain ⟨g₁, g₂, hok⟩ := h₃ ini hini
    obtain ⟨g', hg'⟩ := DumpSections_ok_of_ok ini g₁ g₂ g hok
    exact ⟨g', hg', DumpSections_outputs ini g g' hg'⟩

/-- Witness of C20: two configurations between a before-file and an after-file; the two
validation lines come after the post-amble of the second configuration. -/
theorem main_stdout_order_witness :
    (main (fun n => if n = "1".toList
                    then Except.ok (exampleSections "pre1".toList "1".toList "post1".toList)
                    else Except.ok (exampleSections "pre2".toList "2".toList "post2".toList))
        none (some "b".toList) (some "a".toList) ["1".toList, "2".toList]
        { files := fun n => if n = "b".toList then some "before\n".toList
                            else if n = "a".toList then some "after\n".toList else none,
          stdout := [], stderr := [] }).1.stdout
      = ("before\npre1\nset 1;\npost1\npre2\nset 2;\npost2\n"
          ++ "check 1;\ncheck 2;\nafter\n").toList :=
  (congrArg (fun r => r.1.stdout)
    (main_stdout_order
      (fun n => if n = "1".toList
                then Except.ok (exampleSections "pre1".toList "1".toList "post1".toList)
                else Except.ok (exampleSections "pre2".toList "2".toList "post2".toList))
      (some "b".toList) (some "a".toList) ["1".toList, "2".toList]
      [exampleSections "pre1".toList "1".toList "post1".toList,
       exampleSections "pre2".toList "2".toList "post2".toList]
      _ "before\n".toList "after\n".toList
      { files := fun n => if n = "b".toList then some "before\n".toList
                          else if n = "a".toList then some "after\n".toList else none,
        stdout := [], stderr := [] }
      rfl rfl rfl rfl).1).trans (by decide)

/-! ## Items without value -/

theorem FindItemValue_of_valueless (n : Text) (grp : IniGroup) (defaults : Option IniGroup)
    (item : IniItem)
    (hitem : grp.items.find? (fun item => decide (item.name = n)) = some item)
    (hval : item.value = none) :
    FindItemValue n grp defaults = none := by
  have hget : grp.GetItem n = some item := by
    unfold IniGroup.GetItem
    rw [IniGroup.GetItem.find_eq, hitem]
  unfold FindItemValue
  simp [hget, hval]

theorem filterMap_filter_of_none {α β : Type} (f : α → Option β) (p : α → Bool) (l : List α)
    (h : ∀ x ∈ l, p x = false → f x = none) :
    l.filterMap f = (l.filter p).filterMap f := by
  induction l with
  | nil => rfl
  | cons x rest ih =>
    have hrest := ih (fun y hy => h y (List.mem_cons_of_mem _ hy))
    cases hp : p x with
    | true => rw [List.filter_cons_of_pos hp, List.filterMap_cons, List.filterMap_cons, hrest]
    | false =>
      have hx := h x (List.mem_cons_self _ _) hp
      rw [List.filter_cons_of_neg (by simp [hp]), List.filterMap_cons, hx, hrest]

/-- C21: when the item that the lookup finds for the name `n` in the rendering group (the
first item named `n`) has no value, `FindItemValue` yields no value for every defaults
group, also one that has an item named `n` with a value. Hence a reference to the variable
`n` in a template expands to nothing, and `DumpLine` emits guard lines only for the
keywords of `if`, `ifdef`, `ifndef` other than `n`. -/
theorem FindItemValue_valueless_shadows (n : Text) (grp : IniGroup) (item : IniItem)
    (hitem : grp.items.find? (fun item => decide (item.name = n)) = some item)
    (hval : item.value = none) (defaults : Option IniGroup) :
    FindItemValue n grp defaults = none
    ∧ (∀ s : Text, n ≠ [] → (∀ c ∈ n, c ∈ variable_name_characters) →
        (∀ c ∈ s.head?, c ∉ variable_name_characters) →
        bodyExpansion grp defaults ("$".toList ++ n ++ s) = bodyExpansion grp defaults s)
    ∧ (∀ (name template : Text) (output : OutputStore),
        (DumpLine { name := name, value := some template } rfl grp defaults output).Write
          = output.Write
            ++ ((["if".toList, "ifdef".toList, "ifndef".toList].filter
                  (fun k => decide (k ≠ n))).filterMap
                  (fun k => (FindItemValue k grp defaults).map
                    (fun v => "#".toList ++ k ++ " ".toList ++ v ++ "\n".toList))).flatten
            ++ bodyExpansion grp defaults template
            ++ "\n".toList
            ++ (List.replicate
                  ((["if".toList, "ifdef".toList, "ifndef".toList].filter
                    (fun k => decide (k ≠ n))).filterMap
                    (fun k => (FindItemValue k grp defaults).map
                      (fun v => "#".toList ++ k ++ " ".toList ++ v ++ "\n".toList))).length
                  "#endif\n".toList).flatten) := by
  have hnone := FindItemValue_of_valueless n grp defaults item hitem hval
  refine ⟨hnone, ?_, ?_⟩
  · intro s hne hv hs
    have h := bodyExpansion_variable grp defaults n s hne hv hs
    rw [hnone] at h
    exact h
  · intro name template output
    have hfilter : pp_lines.filterMap (fun k => (FindItemValue k grp defaults).map
          (fun v => "#".toList ++ k ++ " ".toList ++ v ++ "\n".toList))
        = (pp_lines.filter (fun k => decide (k ≠ n))).filterMap
            (fun k => (FindItemValue k grp defaults).map
              (fun v => "#".toList ++ k ++ " ".toList ++ v ++ "\n".toList)) := by
      apply filterMap_filter_of_none
      intro k _ hk
      have hkn : k = n := by simpa using hk
      rw [hkn, hnone]
      rfl
    rw [DumpLine_Write, hfilter]
    rfl

/-- Witness of C21: the group has the key `ifdef` without value and the defaults group has
`ifdef=FEATURE_X`; the lookup yields no value, `$ifdef` expands to nothing and no guard
line is written. -/
theorem FindItemValue_valueless_shadows_witness :
    FindItemValue "ifdef".toList
        { items := [{ name := "ifdef".toList, value := none }],
          type := IniGroupType.IGT_VARIABLES, name := "g".toList }
        (some { items := [{ name := "ifdef".toList, value := some "FEATURE_X".toList }],
                type := IniGroupType.IGT_VARIABLES, name := "defaults".toList }) = none
    ∧ FindItemValue "ifdef".toList
        { items := [], type := IniGroupType.IGT_VARIABLES, name := "g".toList }
        (some { items := [{ name := "ifdef".toList, value := some "FEATURE_X".toList }],
                type := IniGroupType.IGT_VARIABLES, name := "defaults".toList })
      = some "FEATURE_X".toList
    ∧ (DumpLine { name := "t".toList, value := some "a$ifdef;".toList } rfl
        { items := [{ name := "ifdef".toList, value := none }],
          type := IniGroupType.IGT_VARIABLES, name := "g".toList }
        (some { items := [{ name := "ifdef".toList, value := some "FEATURE_X".toList }],
                type := IniGroupType.IGT_VARIABLES, name := "defaults".toList })
        { output_buffer := [] }).Write = "a;\n".toList :=
  ⟨(FindItemValue_valueless_shadows "ifdef".toList _ { name := "ifdef".toList, value := none }
      (by decide) rfl _).1,
    by decide,
    ((FindItemValue_valueless_shadows "ifdef".toList _ { name := "ifdef".toList, value := none }
      (by decide) rfl _).2.2 "t".toList "a$ifdef;".toList { output_buffer := [] }).trans
      (by decide)⟩

end Settingsgen
